import Mathlib

/-!
Particles: polygon shape generation, particle update, geometry flattening
=========================================================================

A shallow embedding of `Particles.cpp` and `Vectors/include/Vector3.cpp`.

* `std::vector<T>` is a `List T`; an in/out reference parameter is an argument
  holding the previous contents and a returned value holding the new contents.
* `int` is an `Int` that wraps to 32 bits wherever the program computes a new
  value (`wrapInt32`), `GLuint` is a `Nat` reduced modulo `2^32` (`toGLuint`).
* `float` is a carrier `F` with the operations of `FloatArith F`.  Nothing is
  assumed about these operations unless a theorem says so, hence a theorem
  stated for every `FloatArith F` holds for whatever the machine arithmetic does.
  `exactArith` is the instance on `ℚ` with exact arithmetic.
-/

set_option autoImplicit false

namespace Particles

/-! ## Numbers -/

/-- The operations of the program on `float`.  `cos` and `sin` are those of the
C library, `ofInt` is the conversion from `int`, `lit` the value of a decimal
literal.  Intermediate `double` values are kept in the same carrier. -/
class FloatArith (F : Type) where
  add : F → F → F
  sub : F → F → F
  mul : F → F → F
  div : F → F → F
  neg : F → F
  lt : F → F → Bool
  le : F → F → Bool
  fabs : F → F
  cos : F → F
  sin : F → F
  ofInt : Int → F
  lit : ℚ → F

/-- The one fact about comparisons that some statements need: `a <= b` excludes
`b < a` (true of machine comparisons, where both fail on a NaN). -/
class FloatOrderLaws (F : Type) [FloatArith F] : Prop where
  not_lt_of_le : ∀ a b : F, FloatArith.le a b = true → FloatArith.lt b a = false

/-- Facts about negation that the reflection of `checkBoundaries` relies on: negating
twice gives the value back, negation swaps the two sides of the range `[-1, 1]`, and
`fabs` ignores the sign (all true of machine negation, which only flips the sign bit). -/
class FloatNegLaws (F : Type) [FloatArith F] : Prop where
  neg_neg : ∀ a : F, FloatArith.neg (FloatArith.neg a) = a
  neg_lt_of_gt : ∀ a : F, FloatArith.lt (FloatArith.lit 1) a = true →
    FloatArith.lt (FloatArith.neg a) (FloatArith.neg (FloatArith.lit 1)) = true
  gt_neg_of_lt : ∀ a : F, FloatArith.lt a (FloatArith.neg (FloatArith.lit 1)) = true →
    FloatArith.lt (FloatArith.lit 1) (FloatArith.neg a) = true
  fabs_neg : ∀ a : F, FloatArith.fabs (FloatArith.neg a) = FloatArith.fabs a

/-- The one fact about zero that statements on particles at rest need: adding the
product of the constant `0` and any value gives the first operand back. -/
class FloatZeroLaws (F : Type) [FloatArith F] : Prop where
  add_zero_mul : ∀ a b : F,
    FloatArith.add a (FloatArith.mul (FloatArith.ofInt 0) b) = a

/-- Smallest value of `int`. -/
def INT_MIN : Int := -2147483648

/-- Largest value of `int`. -/
def INT_MAX : Int := 2147483647

/-- Reduction of an integer to the 32-bit two's complement range. -/
def wrapInt32 (v : Int) : Int := (v + 2147483648) % 4294967296 - 2147483648

/-- Conversion of an `int` to `GLuint` (`unsigned int`): reduction modulo `2^32`. -/
def toGLuint (v : Int) : Nat := (v % 4294967296).toNat

/-- The `abs` of `<cstdlib>` on `int`. -/
def c_abs (v : Int) : Int := wrapInt32 (if v < 0 then -v else v)

/-- The constant `M_PI` of `Vector3.h`. -/
def M_PI : ℚ := 3.14159265358979323846

/-- Loop `for (int i = lo; i < hi; i++) body`, on the state `s`. -/
def forLoop {σ : Type} (lo hi : Int) (body : Int → σ → σ) (s : σ) : σ :=
  (List.range (hi - lo).toNat).foldl (fun st (k : Nat) => body (lo + (k : Int)) st) s

/-- The call `v.resize(n)`: keep the first `n` elements, pad with the default value `d`. -/
def vecResize {α : Type} (v : List α) (n : Nat) (d : α) : List α :=
  v.take n ++ List.replicate (n - v.length) d

/-- The call `v.clear()`. -/
def vecClear {α : Type} (_v : List α) : List α := []

/-- The call `v.push_back(a)`. -/
def vecPush {α : Type} (v : List α) (a : α) : List α := v ++ [a]

/-! ## Vector3 -/

/-- The struct `Vector3`. -/
structure Vector3 (F : Type) where
  x : F
  y : F
  z : F
deriving DecidableEq, Repr

namespace Vector3

variable {F : Type} [FloatArith F]

/-- The constructor call `Vector3()`: all three arguments default to `0`. -/
def zero : Vector3 F := ⟨FloatArith.ofInt 0, FloatArith.ofInt 0, FloatArith.ofInt 0⟩

/-- The `operator+` of two vectors. -/
def add (v v1 : Vector3 F) : Vector3 F :=
  ⟨FloatArith.add v.x v1.x, FloatArith.add v.y v1.y, FloatArith.add v.z v1.z⟩

/-- The `operator*` of a vector and a scalar. -/
def smul (v : Vector3 F) (scalar : F) : Vector3 F :=
  ⟨FloatArith.mul v.x scalar, FloatArith.mul v.y scalar, FloatArith.mul v.z scalar⟩

/-- The static `Up()`. -/
def Up : Vector3 F := ⟨FloatArith.ofInt 0, FloatArith.ofInt 1, FloatArith.ofInt 0⟩

/-- The method `RotateZ`, returning the vector it leaves in place. -/
def RotateZ (v : Vector3 F) (Theta : F) : Vector3 F :=
  let radTheta : F := FloatArith.mul Theta (FloatArith.div (FloatArith.lit M_PI) (FloatArith.ofInt 180))
  let oldX := v.x
  let oldY := v.y
  let x := FloatArith.sub (FloatArith.mul oldX (FloatArith.cos radTheta))
    (FloatArith.mul oldY (FloatArith.sin radTheta))
  let y := FloatArith.add (FloatArith.mul oldX (FloatArith.sin radTheta))
    (FloatArith.mul oldY (FloatArith.cos radTheta))
  let x := if FloatArith.lt (FloatArith.fabs x) (FloatArith.lit (1 / 100000)) then FloatArith.ofInt 0 else x
  let y := if FloatArith.lt (FloatArith.fabs y) (FloatArith.lit (1 / 100000)) then FloatArith.ofInt 0 else y
  ⟨x, y, v.z⟩

/-- The method `RotatedZ`: a copy, rotated. -/
def RotatedZ (v : Vector3 F) (Theta : F) : Vector3 F :=
  let tV1 : Vector3 F := ⟨v.x, v.y, v.z⟩
  tV1.RotateZ Theta

end Vector3

/-! ## Particles.cpp -/

/-- The struct `Particle`. -/
structure Particle (F : Type) where
  Position : Vector3 F
  Velocity : Vector3 F
  Mass : F
  Size : F
deriving DecidableEq, Repr

/-- The constant `HOST_FRAMTETIME`, a `double`. -/
def HOST_FRAMTETIME : ℚ := 0.016666666666

/-- The constant `WIDTH`. -/
def WIDTH : Int := 1280

/-- The constant `HEIGHT`. -/
def HEIGHT : Int := 720

/-- The constant `ASPECT_RATIO`: both casts to `float`, then the division. -/
def ASPECT_RATIO (F : Type) [FloatArith F] : F :=
  FloatArith.div (FloatArith.ofInt WIDTH) (FloatArith.ofInt HEIGHT)

/-- The function `RenderCircle`.  `outVertices` and `outIndices` come in with their
previous contents; the pair returned is their contents on return. -/
def RenderCircle {F : Type} [FloatArith F] (resolution : Int)
    (outVertices : List (Vector3 F)) (outIndices : List Nat) : List (Vector3 F) × List Nat :=
  let resolution := c_abs resolution
  let resolution := if resolution ≤ 2 then 3 else resolution
  let vertexPos : List (Vector3 F) := List.replicate resolution.toNat Vector3.zero
  let vertexPos := vertexPos.set 0 Vector3.Up
  let theta : F := FloatArith.div (FloatArith.lit 360) (FloatArith.ofInt resolution)
  let outVertices := vecResize outVertices resolution.toNat Vector3.zero
  let vertexPos := forLoop 1 resolution
    (fun i vp => vp.set i.toNat ((vp.getD (i - 1).toNat Vector3.zero).RotatedZ theta)) vertexPos
  let outIndices := vecClear outIndices
  let outIndices := forLoop 1 (resolution - 1)
    (fun i oi => vecPush (vecPush (vecPush oi (toGLuint 0)) (toGLuint i)) (toGLuint (i + 1))) outIndices
  let outIndices := vecPush outIndices (toGLuint 0)
  let outIndices := vecPush outIndices (toGLuint (resolution - 1))
  let outIndices := vecPush outIndices (toGLuint 1)
  let outVertices := forLoop 0 resolution
    (fun i ov => ov.set i.toNat (vertexPos.getD i.toNat Vector3.zero)) outVertices
  (outVertices, outIndices)

/-- The local `vertexPos` of `RenderCircle` once the loop that sets the vertex
positions has run, as a function of the value `resolution` has by then. -/
def circleVertexPos {F : Type} [FloatArith F] (resolution : Int) : List (Vector3 F) :=
  let vertexPos : List (Vector3 F) := List.replicate resolution.toNat Vector3.zero
  let vertexPos := vertexPos.set 0 Vector3.Up
  let theta : F := FloatArith.div (FloatArith.lit 360) (FloatArith.ofInt resolution)
  forLoop 1 resolution
    (fun i vp => vp.set i.toNat ((vp.getD (i - 1).toNat Vector3.zero).RotatedZ theta)) vertexPos

/-- The index list the specification describes for `n` vertices: the triples
`(0, i, i+1)` for `i = 1, ..., n-2` in increasing order, then the closing triple
`(0, n-1, 1)`. -/
def fanIndices (n : Nat) : List Nat :=
  (List.range (n - 2)).flatMap (fun k => [0, k + 1, k + 2]) ++ [0, n - 1, 1]

/-- The struct `ParticleShape`. -/
structure ParticleShape (F : Type) where
  localVertices : List (Vector3 F)
  indices : List Nat
deriving DecidableEq, Repr

/-- The constructor of `ParticleShape`: both vectors start empty and are filled by
`RenderCircle`. -/
def ParticleShape.ctor {F : Type} [FloatArith F] (resolution : Int) : ParticleShape F :=
  let r := RenderCircle resolution ([] : List (Vector3 F)) []
  ⟨r.1, r.2⟩

/-- The constructor of `ParticleShape` called without an argument: the resolution
defaults to `1`. -/
def ParticleShape.ctorDefault {F : Type} [FloatArith F] : ParticleShape F :=
  ParticleShape.ctor 1

/-- The value of `resolution` that `RenderCircle` works with, after its first two lines. -/
def effectiveResolution (resolution : Int) : Int :=
  let resolution := c_abs resolution
  if resolution ≤ 2 then 3 else resolution

/-- The function `UpdateParticles`, returning the updated vector. -/
def UpdateParticles {F : Type} [FloatArith F] (particles : List (Particle F)) (deltaTime : F) :
    List (Particle F) :=
  particles.map (fun particle =>
    { particle with Position := particle.Position.add (particle.Velocity.smul deltaTime) })

/-- The function `GenerateParticleVertices`; `outVertices` comes in with its previous
contents, the result is its contents on return. -/
def GenerateParticleVertices {F : Type} [FloatArith F] (particles : List (Particle F))
    (shape : ParticleShape F) (outVertices : List (Vector3 F)) : List (Vector3 F) :=
  let outVertices := vecClear outVertices
  particles.foldl (fun outVertices particle =>
    shape.localVertices.foldl (fun outVertices localVertex =>
      let scaledVertex := localVertex.smul particle.Size
      let scaledVertex : Vector3 F :=
        { scaledVertex with y := FloatArith.mul scaledVertex.y ( ASPECT_RATIO F) }
      let worldVertex := scaledVertex.add particle.Position
      vecPush outVertices worldVertex) outVertices) outVertices

/-- The function `GenerateParticleIndices`; `outIndices` comes in with its previous
contents, the result is its contents on return.  The sum `baseIndex + shape.indices[i]`
is computed in `unsigned int`. -/
def GenerateParticleIndices {F : Type} (particleCount : Int) (shape : ParticleShape F)
    (outIndices : List Nat) : List Nat :=
  let outIndices := vecClear outIndices
  let verticesPerParticle : Int := wrapInt32 (shape.localVertices.length : Int)
  forLoop 0 particleCount (fun p outIndices =>
    let baseIndex : Int := wrapInt32 (p * verticesPerParticle)
    (List.range shape.indices.length).foldl (fun outIndices i =>
      vecPush outIndices ((toGLuint baseIndex + shape.indices.getD i 0) % 4294967296))
      outIndices) outIndices

/-- The lambda `checkBoundaries` of `main`, returning the particle it leaves in place. -/
def checkBoundaries {F : Type} [FloatArith F] (p : Particle F) : Particle F :=
  let one : F := FloatArith.lit 1
  let p : Particle F :=
    if FloatArith.lt one p.Position.x || FloatArith.lt p.Position.x (FloatArith.neg one) then
      { p with Position := { p.Position with x := FloatArith.neg p.Position.x } }
    else p
  let p : Particle F :=
    if FloatArith.lt one p.Position.y || FloatArith.lt p.Position.y (FloatArith.neg one) then
      { p with Position := { p.Position with y := FloatArith.neg p.Position.y } }
    else p
  p

/-- The vertex that `i` successive calls of `RotatedZ(theta)` reach from `Up()`. -/
def rotationOrbit {F : Type} [FloatArith F] (theta : F) : Nat → Vector3 F
  | 0 => Vector3.Up
  | i + 1 => (rotationOrbit theta i).RotatedZ theta

/-- The vector of `GLfloat` that `main` builds from `particleVertices` for the vertex
buffer: `x`, `y`, `z` of each vertex in turn. -/
def flattenVertexData {F : Type} (particleVertices : List (Vector3 F)) : List F :=
  particleVertices.foldl (fun vertexData vertex =>
    vecPush (vecPush (vecPush vertexData vertex.x) vertex.y) vertex.z) []

/-- The simulation part of a tick in `main`: `UpdateParticles`, then `checkBoundaries`
on every particle. -/
def simulationTick {F : Type} [FloatArith F] (particles : List (Particle F)) (deltaTime : F) :
    List (Particle F) :=
  (UpdateParticles particles deltaTime).map checkBoundaries

/-- The variables of `main` that an iteration of the main loop reads or writes;
`vboData` is what the vertex buffer object holds. -/
structure MainState (F : Type) where
  particles : List (Particle F)
  particleVertices : List (Vector3 F)
  vboData : List F
  prevTime : F
  frameCount : Int

/-- One iteration of the main loop of `main`, as far as the simulation goes, with
`crntTime` the value `glfwGetTime()` returns in it. -/
def mainLoopStep {F : Type} [FloatArith F] (particleShape : ParticleShape F) (crntTime : F)
    (st : MainState F) : MainState F :=
  if FloatArith.le (FloatArith.lit HOST_FRAMTETIME) (FloatArith.sub crntTime st.prevTime) then
    let particles := UpdateParticles st.particles (FloatArith.lit HOST_FRAMTETIME)
    let particles := particles.map checkBoundaries
    let particleVertices := GenerateParticleVertices particles particleShape st.particleVertices
    let updatedVertexData := flattenVertexData particleVertices
    { particles := particles
      particleVertices := particleVertices
      vboData := updatedVertexData
      prevTime := crntTime
      frameCount := wrapInt32 (st.frameCount + 1) }
  else st

/-! ## Exact arithmetic -/

/-- A polynomial for the cosine: the Taylor sum up to the power 22. -/
def cosPoly (t : ℚ) : ℚ :=
  (List.range 12).foldl (fun acc k => acc + (-1) ^ k * t ^ (2 * k) / (Nat.factorial (2 * k) : ℚ)) 0

/-- A polynomial for the sine: the Taylor sum up to the power 23. -/
def sinPoly (t : ℚ) : ℚ :=
  (List.range 12).foldl
    (fun acc k => acc + (-1) ^ k * t ^ (2 * k + 1) / (Nat.factorial (2 * k + 1) : ℚ)) 0

/-- Exact arithmetic on the rationals, with polynomials for `cos` and `sin`. -/
instance exactArith : FloatArith ℚ where
  add a b := a + b
  sub a b := a - b
  mul a b := a * b
  div a b := a / b
  neg a := -a
  lt a b := decide (a < b)
  le a b := decide (a ≤ b)
  fabs a := |a|
  cos := cosPoly
  sin := sinPoly
  ofInt k := (k : ℚ)
  lit q := q

/-- Comparisons of rationals are lawful. -/
instance exactOrderLaws : FloatOrderLaws ℚ where
  not_lt_of_le a b h := by
    have h1 : a ≤ b := of_decide_eq_true h
    exact decide_eq_false (not_lt.mpr h1)

/-- Negation of rationals is lawful. -/
instance exactNegLaws : FloatNegLaws ℚ where
  neg_neg a := neg_neg a
  neg_lt_of_gt a h := by
    have h1 : (1 : ℚ) < a := of_decide_eq_true h
    exact decide_eq_true (neg_lt_neg h1)
  gt_neg_of_lt a h := by
    have h1 : a < -(1 : ℚ) := of_decide_eq_true h
    exact decide_eq_true (lt_neg_of_lt_neg h1)
  fabs_neg a := abs_neg a

/-- Zero is lawful in the rationals. -/
instance exactZeroLaws : FloatZeroLaws ℚ where
  add_zero_mul a b := by
    show a + ((0 : Int) : ℚ) * b = a
    simp

/-- A triangle shape with exact coordinates, for concrete instances. -/
def sampleShape : ParticleShape ℚ :=
  ⟨[⟨0, 1, 0⟩, ⟨-1, 0, 0⟩, ⟨1, 0, 0⟩], [0, 1, 2, 0, 2, 1]⟩

/-- A shape with one local vertex whose only index is the largest `GLuint`. -/
def largeIndexShape : ParticleShape ℚ :=
  ⟨[⟨0, 1, 0⟩], [4294967295]⟩

/-- The particle `Particle(pos, vel)` in exact arithmetic: `Mass` and `Size` take the
defaults `1.0f` and `0.005f` of the struct. -/
def sampleParticle (pos vel : Vector3 ℚ) : Particle ℚ :=
  ⟨pos, vel, 1, 5 / 1000⟩

/-- A state of `main` in exact arithmetic: one particle at the origin moving along `x`,
empty buffers, `prevTime = 0`. -/
def sampleState : MainState ℚ :=
  ⟨[sampleParticle ⟨0, 0, 0⟩ ⟨1, 0, 0⟩], [], [], 0, 0⟩

/-- Four particles at rest inside the range, in exact arithmetic. -/
def sampleParticles4 : List (Particle ℚ) :=
  [sampleParticle ⟨0, 0, 0⟩ ⟨0, 0, 0⟩, sampleParticle ⟨1 / 2, 0, 0⟩ ⟨0, 0, 0⟩,
    sampleParticle ⟨0, 1 / 2, 0⟩ ⟨0, 0, 0⟩, sampleParticle ⟨-1 / 2, -1 / 2, 0⟩ ⟨0, 0, 0⟩]

/-! ## Machine integers -/

theorem effectiveResolution_bounds (r : Int) :
    3 ≤ effectiveResolution r ∧ effectiveResolution r ≤ INT_MAX := by
  unfold effectiveResolution c_abs wrapInt32 INT_MAX
  simp only []
  split_ifs <;> omega

theorem effectiveResolution_eq_max (r : Int) (h1 : INT_MIN < r) (h2 : r ≤ INT_MAX) :
    effectiveResolution r = max |r| 3 := by
  unfold INT_MIN at h1
  unfold INT_MAX at h2
  unfold effectiveResolution c_abs wrapInt32
  simp only []
  rcases abs_cases r with ⟨h, _⟩ | ⟨h, _⟩ <;> rw [h] <;> split_ifs <;> omega

theorem toGLuint_of_small (v : Int) (h0 : 0 ≤ v) (h1 : v ≤ INT_MAX) : toGLuint v = v.toNat := by
  unfold INT_MAX at h1
  unfold toGLuint
  congr 1
  omega

/-! ## Loops -/

theorem forLoop_length {α : Type} (lo hi : Int) (body : Int → List α → List α)
    (hbody : ∀ i s, (body i s).length = s.length) (s : List α) :
    (forLoop lo hi body s).length = s.length := by
  unfold forLoop
  generalize (hi - lo).toNat = n
  induction n with
  | zero => simp
  | succ n ih => rw [List.range_succ, List.foldl_append]; simp [hbody, ih]

theorem forLoop_append {α : Type} (lo hi : Int) (g : Int → List α) (s : List α) :
    forLoop lo hi (fun i acc => acc ++ g i) s
      = s ++ (List.range (hi - lo).toNat).flatMap (fun k => g (lo + (k : Int))) := by
  unfold forLoop
  generalize (hi - lo).toNat = n
  induction n with
  | zero => simp
  | succ n ih =>
    rw [List.range_succ, List.foldl_append, ih]
    simp [List.flatMap_append]

theorem foldl_copy_prefix {α : Type} (d : α) (b : List α) (a : List α)
    (hlen : a.length = b.length) (k : Nat) (hk : k ≤ b.length) :
    (List.range k).foldl (fun st (j : Nat) =>
        st.set ((0 : Int) + (j : Int)).toNat (b.getD ((0 : Int) + (j : Int)).toNat d)) a
      = b.take k ++ a.drop k := by
  induction k with
  | zero => simp
  | succ k ih =>
    rw [List.range_succ, List.foldl_append, ih (by omega)]
    simp only [List.foldl_cons, List.foldl_nil, zero_add, Int.toNat_ofNat]
    have hkb : k < b.length := hk
    have hka : k < a.length := by omega
    rw [List.getD_eq_getElem?_getD, List.getElem?_eq_getElem hkb, Option.getD_some]
    rw [List.set_append_right _ _ (by simp)]
    simp only [List.length_take, Nat.min_eq_left (Nat.le_of_lt hkb), Nat.sub_self]
    rw [List.drop_eq_getElem_cons hka, List.set_cons_zero]
    have ht : List.take (k + 1) b = List.take k b ++ [b[k]] := by
      rw [List.take_succ, List.getElem?_eq_getElem hkb]
      rfl
    rw [ht, List.append_assoc]
    rfl

theorem forLoop_copy {α : Type} (d : α) (b a : List α) (hlen : a.length = b.length) :
    forLoop 0 (b.length : Int) (fun i ov => ov.set i.toNat (b.getD i.toNat d)) a = b := by
  unfold forLoop
  have h : ((b.length : Int) - 0).toNat = b.length := by simp
  rw [h, foldl_copy_prefix d b a hlen b.length (le_refl _)]
  simp [← hlen]

theorem vecResize_length {α : Type} (v : List α) (n : Nat) (d : α) :
    (vecResize v n d).length = n := by
  unfold vecResize
  simp only [List.length_append, List.length_take, List.length_replicate]
  omega

/-! ## RenderCircle -/

theorem circleVertexPos_length {F : Type} [FloatArith F] (n : Int) :
    (circleVertexPos n : List (Vector3 F)).length = n.toNat := by
  unfold circleVertexPos
  simp only []
  rw [forLoop_length _ _ _ (fun i s => by simp)]
  simp

theorem RenderCircle_fst {F : Type} [FloatArith F] (r : Int) (ov : List (Vector3 F))
    (oi : List Nat) :
    (RenderCircle r ov oi).1 = circleVertexPos (effectiveResolution r) := by
  have hb := effectiveResolution_bounds r
  have hn : effectiveResolution r
      = (((circleVertexPos (effectiveResolution r) : List (Vector3 F)).length : Nat) : Int) := by
    rw [circleVertexPos_length]
    omega
  show forLoop 0 (effectiveResolution r)
      (fun i ov1 => ov1.set i.toNat
        ((circleVertexPos (effectiveResolution r) : List (Vector3 F)).getD i.toNat Vector3.zero))
      (vecResize ov (effectiveResolution r).toNat Vector3.zero)
    = circleVertexPos (effectiveResolution r)
  generalize hb : (circleVertexPos (effectiveResolution r) : List (Vector3 F)) = b at hn ⊢
  rw [hn]
  apply forLoop_copy
  rw [vecResize_length]
  simp

theorem RenderCircle_snd {F : Type} [FloatArith F] (r : Int) (ov : List (Vector3 F))
    (oi : List Nat) :
    (RenderCircle r ov oi).2 = fanIndices (effectiveResolution r).toNat := by
  have hb := effectiveResolution_bounds r
  show vecPush (vecPush (vecPush (forLoop 1 (effectiveResolution r - 1)
      (fun i oi1 => vecPush (vecPush (vecPush oi1 (toGLuint 0)) (toGLuint i)) (toGLuint (i + 1)))
      (vecClear oi)) (toGLuint 0)) (toGLuint (effectiveResolution r - 1))) (toGLuint 1)
    = fanIndices (effectiveResolution r).toNat
  generalize effectiveResolution r = n at hb ⊢
  obtain ⟨h3, hmax⟩ := hb
  have hbody : (fun (i : Int) (oi1 : List Nat) =>
      vecPush (vecPush (vecPush oi1 (toGLuint 0)) (toGLuint i)) (toGLuint (i + 1)))
      = (fun i oi1 => oi1 ++ [toGLuint 0, toGLuint i, toGLuint (i + 1)]) := by
    funext i oi1
    simp [vecPush]
  rw [hbody, forLoop_append]
  unfold fanIndices vecPush vecClear
  have hcount : (n - 1 - 1).toNat = n.toNat - 2 := by omega
  rw [hcount]
  have hflat : (List.range (n.toNat - 2)).flatMap
        (fun k => [toGLuint 0, toGLuint (1 + (k : Int)), toGLuint (1 + (k : Int) + 1)])
      = (List.range (n.toNat - 2)).flatMap (fun k => [0, k + 1, k + 2]) := by
    apply List.flatMap_congr
    intro k hk
    have hk2 : k < n.toNat - 2 := List.mem_range.mp hk
    unfold INT_MAX at hmax
    rw [toGLuint_of_small 0 (le_refl _) (by unfold INT_MAX; omega),
      toGLuint_of_small (1 + (k : Int)) (by omega) (by unfold INT_MAX; omega),
      toGLuint_of_small (1 + (k : Int) + 1) (by omega) (by unfold INT_MAX; omega)]
    have e1 : (1 + (k : Int)).toNat = k + 1 := by omega
    have e2 : (1 + (k : Int) + 1).toNat = k + 2 := by omega
    rw [e1, e2]
    rfl
  rw [hflat]
  unfold INT_MAX at hmax
  rw [toGLuint_of_small 0 (le_refl _) (by unfold INT_MAX; omega),
    toGLuint_of_small (n - 1) (by omega) (by unfold INT_MAX; omega),
    toGLuint_of_small 1 (by omega) (by unfold INT_MAX; omega)]
  have e3 : (n - 1).toNat = n.toNat - 1 := by omega
  rw [e3]
  simp

theorem length_flatMap_const {α β : Type} (f : α → List β) (c : Nat)
    (hf : ∀ a, (f a).length = c) (l : List α) : (l.flatMap f).length = l.length * c := by
  induction l with
  | nil => simp
  | cons a l ih =>
    rw [List.flatMap_cons, List.length_append, ih, hf, List.length_cons]
    ring

theorem fanIndices_length (n : Nat) (h : 2 ≤ n) : (fanIndices n).length = 3 * (n - 1) := by
  unfold fanIndices
  rw [List.length_append,
    length_flatMap_const (fun k => [0, k + 1, k + 2]) 3 (fun _ => rfl), List.length_range]
  simp only [List.length_cons, List.length_nil]
  omega

theorem RenderCircle_congr {F : Type} [FloatArith F] (r r2 : Int)
    (h : effectiveResolution r = effectiveResolution r2)
    (ov ov2 : List (Vector3 F)) (oi oi2 : List Nat) :
    RenderCircle r ov oi = RenderCircle r2 ov2 oi2 := by
  apply Prod.ext
  · rw [RenderCircle_fst, RenderCircle_fst, h]
  · rw [RenderCircle_snd, RenderCircle_snd, h]

/-! ## The claims on the shape generator -/

/-- C1: for every resolution `r` of type `int` other than `INT_MIN`, with `n = max(|r|, 3)`,
`RenderCircle` leaves exactly `n` vertices and exactly `3 * (n - 1)` indices, that is
`(n - 2) + 1` triangles, in its two output vectors, whatever they held before. -/
theorem C1_RenderCircle_counts {F : Type} [FloatArith F] (r : Int) (ov : List (Vector3 F))
    (oi : List Nat) (hmin : INT_MIN < r) (hmax : r ≤ INT_MAX) :
    ((RenderCircle r ov oi).1.length : Int) = max |r| 3
      ∧ ((RenderCircle r ov oi).2.length : Int) = 3 * (max |r| 3 - 1)
      ∧ ((RenderCircle r ov oi).2.length : Int) = 3 * ((max |r| 3 - 2) + 1) := by
  have hb := effectiveResolution_bounds r
  have he := effectiveResolution_eq_max r hmin hmax
  rw [RenderCircle_fst, RenderCircle_snd, circleVertexPos_length,
    fanIndices_length _ (by omega), ← he]
  refine ⟨by omega, by omega, by omega⟩

/-- Witness of C1 at `r = -7`, with stale contents in both output vectors. -/
theorem C1_RenderCircle_counts_witness :
    ((RenderCircle (-7) [(⟨9, 9, 9⟩ : Vector3 ℚ)] [5, 5]).1.length : Int) = max |(-7 : Int)| 3
      ∧ ((RenderCircle (-7) [(⟨9, 9, 9⟩ : Vector3 ℚ)] [5, 5]).2.length : Int)
          = 3 * (max |(-7 : Int)| 3 - 1)
      ∧ ((RenderCircle (-7) [(⟨9, 9, 9⟩ : Vector3 ℚ)] [5, 5]).2.length : Int)
          = 3 * ((max |(-7 : Int)| 3 - 2) + 1) :=
  C1_RenderCircle_counts (-7) [(⟨9, 9, 9⟩ : Vector3 ℚ)] [5, 5] (by decide) (by decide)

/-- C2: when the effective resolution is `n >= 3`, the index list `RenderCircle` leaves
is exactly the triples `(0, i, i+1)` for `i = 1, ..., n-2` in increasing order of `i`,
followed by the closing triple `(0, n-1, 1)`. -/
theorem C2_RenderCircle_indices {F : Type} [FloatArith F] (n : Nat) (r : Int)
    (ov : List (Vector3 F)) (oi : List Nat) (hr : effectiveResolution r = (n : Int)) :
    3 ≤ n
    ∧ (RenderCircle r ov oi).2
      = (List.range (n - 2)).flatMap (fun k => [0, k + 1, k + 2]) ++ [0, n - 1, 1]
    ∧ (RenderCircle r ov oi).2 = fanIndices n := by
  have hb := effectiveResolution_bounds r
  have h : (RenderCircle r ov oi).2 = fanIndices n := by
    rw [RenderCircle_snd, hr]
    rfl
  exact ⟨by omega, h, h⟩

/-- Witness of C2 at the request `-5`, effective resolution `5`. -/
theorem C2_RenderCircle_indices_witness :
    3 ≤ 5
    ∧ (RenderCircle (-5) [(⟨9, 9, 9⟩ : Vector3 ℚ)] [5, 5]).2
      = (List.range (5 - 2)).flatMap (fun k => [0, k + 1, k + 2]) ++ [0, 5 - 1, 1]
    ∧ (RenderCircle (-5) [(⟨9, 9, 9⟩ : Vector3 ℚ)] [5, 5]).2 = fanIndices 5 :=
  C2_RenderCircle_indices 5 (-5) [(⟨9, 9, 9⟩ : Vector3 ℚ)] [5, 5] (by decide)

/-- C3: the output of `RenderCircle` depends only on `max(|r|, 3)`: for every `r` of type
`int` other than `INT_MIN`, whatever the output vectors held, `RenderCircle(r)` leaves the
vertices and indices of `RenderCircle(max(|r|, 3))`, `RenderCircle(-r)` those of
`RenderCircle(r)`, every `r` with `|r| <= 2` those of resolution `3`, and so does the
default resolution `1` of `ParticleShape`. -/
theorem C3_RenderCircle_depends_on_max {F : Type} [FloatArith F] (r : Int)
    (ov ov2 : List (Vector3 F)) (oi oi2 : List Nat) (hmin : INT_MIN < r) (hmax : r ≤ INT_MAX) :
    RenderCircle r ov oi = RenderCircle (max |r| 3) ov2 oi2
      ∧ RenderCircle (-r) ov oi = RenderCircle r ov2 oi2
      ∧ (|r| ≤ 2 → RenderCircle r ov oi = RenderCircle 3 ov2 oi2)
      ∧ (ParticleShape.ctorDefault : ParticleShape F) = ParticleShape.ctor 3 := by
  have hmin2 := hmin
  have hmax2 := hmax
  unfold INT_MIN at hmin2
  unfold INT_MAX at hmax2
  have he := effectiveResolution_eq_max r hmin hmax
  have habs : |r| ≤ 2147483647 := by
    rcases abs_cases r with ⟨h, _⟩ | ⟨h, _⟩ <;> omega
  have habs0 : 0 ≤ |r| := abs_nonneg r
  have e3 : effectiveResolution 3 = 3 := by decide
  refine ⟨?_, ?_, ?_, ?_⟩
  · apply RenderCircle_congr
    rw [he, effectiveResolution_eq_max _ (by unfold INT_MIN; omega) (by unfold INT_MAX; omega)]
    rw [abs_of_nonneg (by omega : (0 : Int) ≤ max |r| 3)]
    omega
  · apply RenderCircle_congr
    rw [he, effectiveResolution_eq_max _ (by unfold INT_MIN; omega) (by unfold INT_MAX; omega),
      abs_neg]
  · intro h2
    apply RenderCircle_congr
    rw [he, e3]
    omega
  · unfold ParticleShape.ctorDefault ParticleShape.ctor
    simp only []
    rw [RenderCircle_congr 1 3 (by decide) [] [] [] []]

/-- Witness of C3 at `r = -2`. -/
theorem C3_RenderCircle_depends_on_max_witness :
    RenderCircle (-2) [(⟨9, 9, 9⟩ : Vector3 ℚ)] [5, 5] = RenderCircle (max |(-2 : Int)| 3) [] []
      ∧ RenderCircle (-(-2)) [(⟨9, 9, 9⟩ : Vector3 ℚ)] [5, 5] = RenderCircle (-2) [] []
      ∧ (|(-2 : Int)| ≤ 2 → RenderCircle (-2) [(⟨9, 9, 9⟩ : Vector3 ℚ)] [5, 5]
          = RenderCircle 3 [] [])
      ∧ (ParticleShape.ctorDefault : ParticleShape ℚ) = ParticleShape.ctor 3 :=
  C3_RenderCircle_depends_on_max (-2) [(⟨9, 9, 9⟩ : Vector3 ℚ)] [] [5, 5] [] (by decide)
    (by decide)

/-- C4, as stated, fails: the request `-4` is `<= 2`, yet `RenderCircle(-4)` leaves the
four vertices and nine indices of resolution `4`, not the shape of `RenderCircle(3)`. -/
theorem C4_counterexample :
    (-4 : Int) ≤ 2
      ∧ (RenderCircle (-4) ([] : List (Vector3 ℚ)) []).1.length = 4
      ∧ (RenderCircle 3 ([] : List (Vector3 ℚ)) []).1.length = 3
      ∧ (RenderCircle (-4) ([] : List (Vector3 ℚ)) []).2 = [0, 1, 2, 0, 2, 3, 0, 3, 1]
      ∧ (RenderCircle 3 ([] : List (Vector3 ℚ)) []).2 = [0, 1, 2, 0, 2, 1]
      ∧ RenderCircle (-4) ([] : List (Vector3 ℚ)) [] ≠ RenderCircle 3 [] [] := by
  have e4 : effectiveResolution (-4) = 4 := by decide
  have e3 : effectiveResolution 3 = 3 := by decide
  have l4 : (RenderCircle (-4) ([] : List (Vector3 ℚ)) []).1.length = 4 := by
    rw [RenderCircle_fst, circleVertexPos_length, e4]; rfl
  have l3 : (RenderCircle 3 ([] : List (Vector3 ℚ)) []).1.length = 3 := by
    rw [RenderCircle_fst, circleVertexPos_length, e3]; rfl
  refine ⟨by decide, l4, l3, ?_, ?_, ?_⟩
  · rw [RenderCircle_snd, e4]; decide
  · rw [RenderCircle_snd, e3]; decide
  · intro h
    rw [h, l3] at l4
    exact absurd l4 (by decide)

/-- C4, amended: for every resolution `r` with `-3 <= r <= 2`, `RenderCircle(r)` leaves the
same vertices and the same indices as `RenderCircle(3)`, whatever the output vectors held. -/
theorem C4_RenderCircle_small {F : Type} [FloatArith F] (r : Int)
    (ov ov2 : List (Vector3 F)) (oi oi2 : List Nat) (hlo : -3 ≤ r) (hhi : r ≤ 2) :
    RenderCircle r ov oi = RenderCircle 3 ov2 oi2 := by
  apply RenderCircle_congr
  have e3 : effectiveResolution 3 = 3 := by decide
  rw [effectiveResolution_eq_max r (by unfold INT_MIN; omega) (by unfold INT_MAX; omega), e3]
  rcases abs_cases r with ⟨h, _⟩ | ⟨h, _⟩ <;> omega

/-- Witness of the amended C4 at `r = 0`. -/
theorem C4_RenderCircle_small_witness :
    RenderCircle 0 [(⟨9, 9, 9⟩ : Vector3 ℚ)] [5, 5] = RenderCircle 3 [] [] :=
  C4_RenderCircle_small 0 [(⟨9, 9, 9⟩ : Vector3 ℚ)] [] [5, 5] [] (by decide) (by decide)

/-! ## Flattening -/

theorem foldl_vecPush_map {α β : Type} (f : α → β) (l : List α) (init : List β) :
    l.foldl (fun acc a => vecPush acc (f a)) init = init ++ l.map f := by
  induction l generalizing init with
  | nil => simp
  | cons a l ih =>
    rw [List.foldl_cons, ih]
    simp [vecPush]

theorem foldl_append_flatMap {α β : Type} (g : α → List β) (l : List α) (init : List β) :
    l.foldl (fun acc a => acc ++ g a) init = init ++ l.flatMap g := by
  induction l generalizing init with
  | nil => simp
  | cons a l ih => simp [ih]

theorem getElem?_flatMap_const {α β : Type} (g : α → List β) (c : Nat)
    (hg : ∀ a, (g a).length = c) (l : List α) (p j : Nat) (hp : p < l.length) (hj : j < c) :
    (l.flatMap g)[p * c + j]? = (g l[p])[j]? := by
  induction l generalizing p with
  | nil => simp at hp
  | cons a l ih =>
    rw [List.flatMap_cons]
    cases p with
    | zero =>
      simp only [Nat.zero_mul, Nat.zero_add, List.getElem_cons_zero]
      rw [List.getElem?_append_left (by rw [hg]; exact hj)]
    | succ p =>
      have hp2 : p < l.length := by simpa using hp
      rw [List.getElem?_append_right (by rw [hg, Nat.succ_mul]; omega)]
      have e : (p + 1) * c + j - (g a).length = p * c + j := by
        rw [hg, Nat.succ_mul]; omega
      rw [e, ih p hp2]
      simp

theorem GenerateParticleVertices_eq {F : Type} [FloatArith F] (particles : List (Particle F))
    (shape : ParticleShape F) (out : List (Vector3 F)) :
    GenerateParticleVertices particles shape out
      = particles.flatMap (fun particle => shape.localVertices.map (fun localVertex =>
          (⟨FloatArith.add (FloatArith.mul localVertex.x particle.Size) particle.Position.x,
            FloatArith.add (FloatArith.mul (FloatArith.mul localVertex.y particle.Size)
              ( ASPECT_RATIO F)) particle.Position.y,
            FloatArith.add (FloatArith.mul localVertex.z particle.Size) particle.Position.z⟩ :
            Vector3 F))) := by
  unfold GenerateParticleVertices vecClear
  simp only [foldl_vecPush_map, foldl_append_flatMap, List.nil_append]
  rfl

theorem toGLuint_wrapInt32 (v : Int) : toGLuint (wrapInt32 v) = (v % 4294967296).toNat := by
  unfold toGLuint wrapInt32
  congr 1
  omega

theorem GenerateParticleIndices_eq {F : Type} (particleCount : Int) (shape : ParticleShape F)
    (out : List Nat) :
    GenerateParticleIndices particleCount shape out
      = (List.range particleCount.toNat).flatMap (fun p =>
          (List.range shape.indices.length).map (fun i =>
            ((((p : Int) * wrapInt32 (shape.localVertices.length : Int)) % 4294967296).toNat
              + shape.indices.getD i 0) % 4294967296)) := by
  unfold GenerateParticleIndices vecClear
  simp only [foldl_vecPush_map, forLoop_append, List.nil_append, toGLuint_wrapInt32,
    Int.sub_zero, Int.zero_add]

theorem fanIndices_lt (n : Nat) (hn : 3 ≤ n) (x : Nat) (hx : x ∈ fanIndices n) : x < n := by
  unfold fanIndices at hx
  rw [List.mem_append, List.mem_flatMap] at hx
  rcases hx with ⟨k, hk, hxk⟩ | hx
  · have hk2 : k < n - 2 := List.mem_range.mp hk
    simp only [List.mem_cons, List.mem_singleton, List.mem_nil_iff, or_false] at hxk
    rcases hxk with h | h | h <;> omega
  · simp only [List.mem_cons, List.mem_singleton, List.mem_nil_iff, or_false] at hx
    rcases hx with h | h | h <;> omega

theorem GenerateParticleVertices_length {F : Type} [FloatArith F] (particles : List (Particle F))
    (shape : ParticleShape F) (out : List (Vector3 F)) :
    (GenerateParticleVertices particles shape out).length
      = particles.length * shape.localVertices.length := by
  rw [GenerateParticleVertices_eq,
    length_flatMap_const _ shape.localVertices.length (fun _ => by simp)]

/-! ## The claims on flattening and on the particle update -/

/-- C5: for every particle list of length `P` and every shape with `V` local vertices,
`GenerateParticleVertices` leaves exactly `P * V` vertices, and for `p < P`, `j < V` the
vertex in slot `p * V + j` is
`(local[j].x * Size_p + Pos_p.x, (local[j].y * Size_p) * ASPECT_RATIO + Pos_p.y,
local[j].z * Size_p + Pos_p.z)` with `ASPECT_RATIO = 1280 / 720`: only the Y component gets
the aspect-ratio factor, and the vertices of particle `p` fill the slots `[p*V, p*V + V)`. -/
theorem C5_GenerateParticleVertices_slots {F : Type} [FloatArith F]
    (particles : List (Particle F)) (shape : ParticleShape F) (out : List (Vector3 F)) :
    (GenerateParticleVertices particles shape out).length
        = particles.length * shape.localVertices.length
      ∧ ( ASPECT_RATIO F) = FloatArith.div (FloatArith.ofInt 1280) (FloatArith.ofInt 720)
      ∧ ∀ (p j : Nat) (hp : p < particles.length) (hj : j < shape.localVertices.length),
          (GenerateParticleVertices particles shape out)[p * shape.localVertices.length + j]?
            = some (⟨FloatArith.add (FloatArith.mul shape.localVertices[j].x particles[p].Size)
                  particles[p].Position.x,
                FloatArith.add (FloatArith.mul
                  (FloatArith.mul shape.localVertices[j].y particles[p].Size) ( ASPECT_RATIO F))
                  particles[p].Position.y,
                FloatArith.add (FloatArith.mul shape.localVertices[j].z particles[p].Size)
                  particles[p].Position.z⟩ : Vector3 F) := by
  refine ⟨GenerateParticleVertices_length particles shape out, rfl, ?_⟩
  intro p j hp hj
  rw [GenerateParticleVertices_eq,
    getElem?_flatMap_const _ shape.localVertices.length (fun _ => by simp) particles p j hp hj]
  simp [List.getElem?_map, List.getElem?_eq_getElem hj]

/-- C6, as stated, fails: with `P = 2`, one local vertex and the index list `[4294967295]`,
`P * V = 2` does not overflow, yet the entry at position `1 * I + 0 = 1` is `0`, not
`1 * V + idx[0] = 4294967296`: the sum is taken in `unsigned int`. -/
theorem C6_counterexample :
    (2 : Int) * (largeIndexShape.localVertices.length : Int) ≤ INT_MAX
      ∧ largeIndexShape.localVertices.length = 1
      ∧ largeIndexShape.indices = [4294967295]
      ∧ GenerateParticleIndices 2 largeIndexShape [] = [4294967295, 0]
      ∧ (GenerateParticleIndices 2 largeIndexShape [])[1 * 1 + 0]?
          ≠ some (1 * 1 + 4294967295) := by
  refine ⟨by decide, rfl, rfl, ?_, ?_⟩
  · rw [GenerateParticleIndices_eq]
    simp only [largeIndexShape]
    decide
  · rw [GenerateParticleIndices_eq]
    simp only [largeIndexShape]
    decide

/-- C6, amended: for every particle count `P` and every shape with `V` local vertices and
index list `idx` of length `I`, provided `P * V` does not overflow `int`:
`GenerateParticleIndices` leaves exactly `P * I` indices (none when `P <= 0`), and for
`p < P`, `i < I` the entry at position `p * I + i` is `(p * V + idx[i]) mod 2^32`, which is
`p * V + idx[i]` whenever that sum is below `2^32`. -/
theorem C6_GenerateParticleIndices_entries {F : Type} (particleCount : Int)
    (shape : ParticleShape F) (out : List Nat)
    (hov : particleCount * (shape.localVertices.length : Int) ≤ INT_MAX) :
    (particleCount ≤ 0 → GenerateParticleIndices particleCount shape out = [])
      ∧ (GenerateParticleIndices particleCount shape out).length
          = particleCount.toNat * shape.indices.length
      ∧ ∀ (p i : Nat) (_hp : (p : Int) < particleCount) (hi : i < shape.indices.length),
          (GenerateParticleIndices particleCount shape out)[p * shape.indices.length + i]?
              = some ((p * shape.localVertices.length + shape.indices[i]) % 4294967296)
            ∧ (p * shape.localVertices.length + shape.indices[i] < 4294967296 →
                (GenerateParticleIndices particleCount shape out)[p * shape.indices.length + i]?
                  = some (p * shape.localVertices.length + shape.indices[i])) := by
  rw [GenerateParticleIndices_eq]
  refine ⟨?_, ?_, ?_⟩
  · intro h
    rw [Int.toNat_eq_zero.mpr h]
    rfl
  · rw [length_flatMap_const _ shape.indices.length (fun _ => by simp), List.length_range]
  · intro p i hp hi
    have hpn : p < (List.range particleCount.toNat).length := by
      rw [List.length_range]; omega
    have hval : ((List.range particleCount.toNat).flatMap (fun p =>
          (List.range shape.indices.length).map (fun i =>
            ((((p : Int) * wrapInt32 (shape.localVertices.length : Int)) % 4294967296).toNat
              + shape.indices.getD i 0) % 4294967296)))[p * shape.indices.length + i]?
        = some ((p * shape.localVertices.length + shape.indices[i]) % 4294967296) := by
      rw [getElem?_flatMap_const _ shape.indices.length (fun _ => by simp) _ p i hpn hi]
      rw [List.getElem?_map, List.getElem?_range hi]
      simp only [List.getElem_range, Option.map_some']
      have hV : (shape.localVertices.length : Int) ≤ 2147483647 := by
        have h1 : (1 : Int) ≤ particleCount := by omega
        have h2 : (shape.localVertices.length : Int) * 1
            ≤ (shape.localVertices.length : Int) * particleCount :=
          Int.mul_le_mul_of_nonneg_left h1 (by omega)
        unfold INT_MAX at hov
        rw [Int.mul_comm] at hov
        omega
      have hwrap : wrapInt32 (shape.localVertices.length : Int)
          = (shape.localVertices.length : Int) := by
        unfold wrapInt32; omega
      have hpV : (p : Int) * (shape.localVertices.length : Int) ≤ 2147483647 := by
        have h2 : (p : Int) * (shape.localVertices.length : Int)
            ≤ particleCount * (shape.localVertices.length : Int) :=
          Int.mul_le_mul_of_nonneg_right (by omega) (by omega)
        unfold INT_MAX at hov
        omega
      have hpV0 : (0 : Int) ≤ (p : Int) * (shape.localVertices.length : Int) :=
        Int.mul_nonneg (by omega) (by omega)
      have hmod : (((p : Int) * (shape.localVertices.length : Int)) % 4294967296).toNat
          = p * shape.localVertices.length := by
        rw [Int.emod_eq_of_lt hpV0 (by omega)]
        rw [← Int.natCast_mul, Int.toNat_ofNat]
      rw [hwrap, hmod, List.getD_eq_getElem?_getD, List.getElem?_eq_getElem hi,
        Option.getD_some]
    refine ⟨hval, ?_⟩
    intro hlt
    rw [hval, Nat.mod_eq_of_lt hlt]

/-- Witness of the amended C6: three particles of a triangle shape. -/
theorem C6_GenerateParticleIndices_entries_witness :
    ((3 : Int) ≤ 0 → GenerateParticleIndices 3 sampleShape [7] = [])
      ∧ (GenerateParticleIndices 3 sampleShape [7]).length
          = (3 : Int).toNat * sampleShape.indices.length
      ∧ ∀ (p i : Nat) (_hp : (p : Int) < 3) (hi : i < sampleShape.indices.length),
          (GenerateParticleIndices 3 sampleShape [7])[p * sampleShape.indices.length + i]?
              = some ((p * sampleShape.localVertices.length + sampleShape.indices[i])
                  % 4294967296)
            ∧ (p * sampleShape.localVertices.length + sampleShape.indices[i] < 4294967296 →
                (GenerateParticleIndices 3 sampleShape [7])[p * sampleShape.indices.length + i]?
                  = some (p * sampleShape.localVertices.length + sampleShape.indices[i])) :=
  C6_GenerateParticleIndices_entries 3 sampleShape [7] (by decide)

theorem ctor_localVertices_length {F : Type} [FloatArith F] (r : Int) :
    (ParticleShape.ctor r : ParticleShape F).localVertices.length
      = (effectiveResolution r).toNat := by
  show (RenderCircle r ([] : List (Vector3 F)) []).1.length = _
  rw [RenderCircle_fst, circleVertexPos_length]

theorem ctor_indices {F : Type} [FloatArith F] (r : Int) :
    (ParticleShape.ctor r : ParticleShape F).indices
      = fanIndices (effectiveResolution r).toNat := by
  show (RenderCircle r ([] : List (Vector3 F)) []).2 = _
  rw [RenderCircle_snd]

theorem emod_toNat_le (a b : Nat) :
    ((((a : Int) * (b : Int)) % 4294967296).toNat) ≤ a * b := by
  have h2 : (a : Int) * (b : Int) = ((a * b : Nat) : Int) := by
    rw [Int.natCast_mul]
  rw [h2]
  generalize a * b = c
  omega

theorem GenerateParticleIndices_lt {F : Type} (particleCount : Int) (shape : ParticleShape F)
    (out : List Nat) (P : Nat) (hP : particleCount ≤ (P : Int))
    (hV : (shape.localVertices.length : Int) ≤ INT_MAX)
    (hidx : ∀ x ∈ shape.indices, x < shape.localVertices.length) :
    ∀ x ∈ GenerateParticleIndices particleCount shape out,
      x < P * shape.localVertices.length := by
  intro x hx
  rw [GenerateParticleIndices_eq, List.mem_flatMap] at hx
  obtain ⟨p, hp, hx⟩ := hx
  rw [List.mem_map] at hx
  obtain ⟨i, hi, hx⟩ := hx
  have hp1 : p < particleCount.toNat := List.mem_range.mp hp
  have hp2 : p < P := by omega
  have hi2 : i < shape.indices.length := List.mem_range.mp hi
  have hlt : shape.indices.getD i 0 < shape.localVertices.length := by
    rw [List.getD_eq_getElem?_getD, List.getElem?_eq_getElem hi2, Option.getD_some]
    exact hidx _ (List.getElem_mem hi2)
  have hwrap : wrapInt32 (shape.localVertices.length : Int)
      = (shape.localVertices.length : Int) := by
    unfold INT_MAX at hV
    unfold wrapInt32
    omega
  rw [hwrap] at hx
  have hmod := emod_toNat_le p shape.localVertices.length
  have hsucc : (p + 1) * shape.localVertices.length ≤ P * shape.localVertices.length :=
    Nat.mul_le_mul_right _ hp2
  rw [Nat.succ_mul] at hsucc
  have hle := Nat.mod_le
    ((((p : Int) * (shape.localVertices.length : Int)) % 4294967296).toNat
      + shape.indices.getD i 0) 4294967296
  rw [hx] at hle
  have hfin : x < P * shape.localVertices.length :=
    calc x ≤ (((p : Int) * (shape.localVertices.length : Int)) % 4294967296).toNat
            + shape.indices.getD i 0 := hle
      _ ≤ p * shape.localVertices.length + shape.indices.getD i 0 :=
          Nat.add_le_add_right hmod _
      _ < p * shape.localVertices.length + shape.localVertices.length :=
          Nat.add_lt_add_left hlt _
      _ ≤ P * shape.localVertices.length := hsucc
  exact hfin

/-- C7: for every resolution `r` and every particle list of length `P`, with the shape
built by `ParticleShape(r)` having `V` vertices: `GenerateParticleVertices` leaves exactly
`P * V` vertices and every value `GenerateParticleIndices(P, shape)` emits is strictly less
than `P * V`, hence addresses an existing flattened vertex. -/
theorem C7_flattened_indices_in_range {F : Type} [FloatArith F] (r : Int)
    (particles : List (Particle F)) (outV : List (Vector3 F)) (outI : List Nat) :
    (GenerateParticleVertices particles (ParticleShape.ctor r) outV).length
        = particles.length * (ParticleShape.ctor r : ParticleShape F).localVertices.length
      ∧ ∀ x ∈ GenerateParticleIndices (particles.length : Int)
            (ParticleShape.ctor r : ParticleShape F) outI,
          x < particles.length * (ParticleShape.ctor r : ParticleShape F).localVertices.length
            ∧ x < (GenerateParticleVertices particles (ParticleShape.ctor r) outV).length := by
  have hlen := GenerateParticleVertices_length particles (ParticleShape.ctor r : ParticleShape F)
    outV
  refine ⟨hlen, ?_⟩
  have hb := effectiveResolution_bounds r
  have hV : ((ParticleShape.ctor r : ParticleShape F).localVertices.length : Int) ≤ INT_MAX := by
    rw [ctor_localVertices_length]
    omega
  have hidx : ∀ x ∈ (ParticleShape.ctor r : ParticleShape F).indices,
      x < (ParticleShape.ctor r : ParticleShape F).localVertices.length := by
    intro x hx
    rw [ctor_indices] at hx
    rw [ctor_localVertices_length]
    exact fanIndices_lt _ (by omega) x hx
  intro x hx
  have hlt := GenerateParticleIndices_lt (particles.length : Int)
    (ParticleShape.ctor r : ParticleShape F) outI particles.length (le_refl _) hV hidx x hx
  rw [hlen]
  exact ⟨hlt, hlt⟩

/-- C8: flattening is idempotent: the results of `GenerateParticleVertices` and
`GenerateParticleIndices` do not depend on what the output vector held, so a second call
with unchanged particles and shape leaves the buffer of the first call (nothing is
appended or accumulated). -/
theorem C8_flattening_idempotent {F : Type} [FloatArith F] (particles : List (Particle F))
    (shape : ParticleShape F) (particleCount : Int) (outV outV2 : List (Vector3 F))
    (outI outI2 : List Nat) :
    GenerateParticleVertices particles shape outV = GenerateParticleVertices particles shape outV2
      ∧ GenerateParticleVertices particles shape (GenerateParticleVertices particles shape outV)
          = GenerateParticleVertices particles shape outV
      ∧ GenerateParticleIndices particleCount shape outI
          = GenerateParticleIndices particleCount shape outI2
      ∧ GenerateParticleIndices particleCount shape
            (GenerateParticleIndices particleCount shape outI)
          = GenerateParticleIndices particleCount shape outI := by
  refine ⟨?_, ?_, ?_, ?_⟩
  · rw [GenerateParticleVertices_eq, GenerateParticleVertices_eq]
  · rw [GenerateParticleVertices_eq, GenerateParticleVertices_eq]
  · rw [GenerateParticleIndices_eq, GenerateParticleIndices_eq]
  · rw [GenerateParticleIndices_eq, GenerateParticleIndices_eq]

/-- C9: for every particle list and every `dt`, `UpdateParticles` leaves a list of the same
length and order in which each particle has `Position = old Position + old Velocity * dt`
component by component and the `Velocity`, `Mass` and `Size` it had. -/
theorem C9_UpdateParticles_frame {F : Type} [FloatArith F] (particles : List (Particle F))
    (dt : F) :
    (UpdateParticles particles dt).length = particles.length
      ∧ ∀ (i : Nat) (hi : i < particles.length),
          (UpdateParticles particles dt)[i]?
            = some (⟨⟨FloatArith.add particles[i].Position.x
                        (FloatArith.mul particles[i].Velocity.x dt),
                      FloatArith.add particles[i].Position.y
                        (FloatArith.mul particles[i].Velocity.y dt),
                      FloatArith.add particles[i].Position.z
                        (FloatArith.mul particles[i].Velocity.z dt)⟩,
                    particles[i].Velocity, particles[i].Mass, particles[i].Size⟩ :
                Particle F) := by
  unfold UpdateParticles
  refine ⟨List.length_map _ _, ?_⟩
  intro i hi
  rw [List.getElem?_map, List.getElem?_eq_getElem hi]
  rfl

theorem checkBoundaries_x {F : Type} [FloatArith F] (p : Particle F) :
    (checkBoundaries p).Position.x
      = if (FloatArith.lt (FloatArith.lit 1) p.Position.x
            || FloatArith.lt p.Position.x (FloatArith.neg (FloatArith.lit 1))) = true
        then FloatArith.neg p.Position.x else p.Position.x := by
  unfold checkBoundaries
  simp only []
  split_ifs <;> rfl

theorem checkBoundaries_y {F : Type} [FloatArith F] (p : Particle F) :
    (checkBoundaries p).Position.y
      = if (FloatArith.lt (FloatArith.lit 1) p.Position.y
            || FloatArith.lt p.Position.y (FloatArith.neg (FloatArith.lit 1))) = true
        then FloatArith.neg p.Position.y else p.Position.y := by
  unfold checkBoundaries
  simp only []
  split_ifs <;> simp_all

/-- C10: `checkBoundaries` treats the x and y axes independently: a position component `c`
with `c > 1` or `c < -1` is replaced by `-c`, and a component with `-1 <= c <= 1` (the
values `+1` and `-1` included) is left as it is, for every arithmetic whose comparisons are
lawful.  In exact arithmetic, `Position (0.95, 0, 0)`, `Velocity (10, 0, 0)` and
`dt = 0.0167` give `x = 1.117` after `UpdateParticles` and `x = -1.117` after
`checkBoundaries`. -/
theorem C10_checkBoundaries_axes :
    (∀ (F : Type) [FloatArith F] [FloatOrderLaws F] (p : Particle F),
        ((FloatArith.lt (FloatArith.lit 1) p.Position.x = true
            ∨ FloatArith.lt p.Position.x (FloatArith.neg (FloatArith.lit 1)) = true) →
          (checkBoundaries p).Position.x = FloatArith.neg p.Position.x)
        ∧ ((FloatArith.le (FloatArith.neg (FloatArith.lit 1)) p.Position.x = true
            ∧ FloatArith.le p.Position.x (FloatArith.lit 1) = true) →
          (checkBoundaries p).Position.x = p.Position.x)
        ∧ ((FloatArith.lt (FloatArith.lit 1) p.Position.y = true
            ∨ FloatArith.lt p.Position.y (FloatArith.neg (FloatArith.lit 1)) = true) →
          (checkBoundaries p).Position.y = FloatArith.neg p.Position.y)
        ∧ ((FloatArith.le (FloatArith.neg (FloatArith.lit 1)) p.Position.y = true
            ∧ FloatArith.le p.Position.y (FloatArith.lit 1) = true) →
          (checkBoundaries p).Position.y = p.Position.y))
      ∧ checkBoundaries (sampleParticle ⟨1, -1, 0⟩ ⟨0, 0, 0⟩)
          = sampleParticle ⟨1, -1, 0⟩ ⟨0, 0, 0⟩
      ∧ UpdateParticles [sampleParticle ⟨0.95, 0, 0⟩ ⟨10, 0, 0⟩] 0.0167
          = [sampleParticle ⟨1.117, 0, 0⟩ ⟨10, 0, 0⟩]
      ∧ (UpdateParticles [sampleParticle ⟨0.95, 0, 0⟩ ⟨10, 0, 0⟩] 0.0167).map checkBoundaries
          = [sampleParticle ⟨-1.117, 0, 0⟩ ⟨10, 0, 0⟩] := by
  refine ⟨?_, ?_, ?_, ?_⟩
  · intro F _ _ p
    refine ⟨?_, ?_, ?_, ?_⟩
    · intro h
      rw [checkBoundaries_x, if_pos (by simpa using h)]
    · intro h
      have h1 := FloatOrderLaws.not_lt_of_le _ _ h.1
      have h2 := FloatOrderLaws.not_lt_of_le _ _ h.2
      rw [checkBoundaries_x, if_neg (by simp [h1, h2])]
    · intro h
      rw [checkBoundaries_y, if_pos (by simpa using h)]
    · intro h
      have h1 := FloatOrderLaws.not_lt_of_le _ _ h.1
      have h2 := FloatOrderLaws.not_lt_of_le _ _ h.2
      rw [checkBoundaries_y, if_neg (by simp [h1, h2])]
  · norm_num [checkBoundaries, sampleParticle, FloatArith.lt, FloatArith.lit, FloatArith.neg]
  · simp only [UpdateParticles, sampleParticle, Vector3.add, Vector3.smul, FloatArith.add,
      FloatArith.mul, List.map_cons, List.map_nil]
    norm_num
  · simp only [UpdateParticles, sampleParticle, Vector3.add, Vector3.smul, FloatArith.add,
      FloatArith.mul, List.map_cons, List.map_nil, checkBoundaries, FloatArith.lt,
      FloatArith.lit, FloatArith.neg]
    norm_num

/-- Witness of C10 in exact arithmetic: of the position `(3/2, -1, 3)` the x component is
out of range and negated, the y component is `-1` and kept. -/
theorem C10_checkBoundaries_axes_witness :
    (checkBoundaries (sampleParticle ⟨3 / 2, -1, 3⟩ ⟨0, 0, 0⟩)).Position.x
        = FloatArith.neg (3 / 2 : ℚ)
      ∧ (checkBoundaries (sampleParticle ⟨3 / 2, -1, 3⟩ ⟨0, 0, 0⟩)).Position.y = -1 :=
  ⟨(C10_checkBoundaries_axes.1 ℚ (sampleParticle ⟨3 / 2, -1, 3⟩ ⟨0, 0, 0⟩)).1
      (Or.inl (by norm_num [FloatArith.lt, FloatArith.lit, sampleParticle])),
    (C10_checkBoundaries_axes.1 ℚ (sampleParticle ⟨3 / 2, -1, 3⟩ ⟨0, 0, 0⟩)).2.2.2
      ⟨by norm_num [FloatArith.le, FloatArith.lit, FloatArith.neg, sampleParticle],
        by norm_num [FloatArith.le, FloatArith.lit, sampleParticle]⟩⟩

/-! ## The vertices of the shape -/

theorem rotationOrbit_z {F : Type} [FloatArith F] (theta : F) (i : Nat) :
    (rotationOrbit theta i).z = FloatArith.ofInt 0 := by
  induction i with
  | zero => rfl
  | succ i ih =>
    show ((rotationOrbit theta i).RotatedZ theta).z = _
    unfold Vector3.RotatedZ Vector3.RotateZ
    exact ih

theorem orbit_fill_step {F : Type} [FloatArith F] (theta : F) (n k : Nat) (hk : k + 1 < n) :
    ((List.range n).map (fun i => if i ≤ k then rotationOrbit theta i else Vector3.zero)).set
        (k + 1) (rotationOrbit theta (k + 1))
      = (List.range n).map (fun i => if i ≤ k + 1 then rotationOrbit theta i else Vector3.zero) := by
  apply List.ext_getElem?
  intro i
  rw [List.getElem?_set]
  simp only [List.getElem?_map, List.length_map, List.length_range]
  by_cases hi : i < n
  · rw [List.getElem?_range hi]
    simp only [Option.map_some']
    by_cases hik : k + 1 = i
    · subst hik
      simp [hk]
    · rw [if_neg hik]
      by_cases h1 : i ≤ k
      · rw [if_pos h1, if_pos (by omega)]
      · rw [if_neg h1, if_neg (by omega)]
  · have hnone : (List.range n)[i]? = none := List.getElem?_eq_none (by simp; omega)
    rw [hnone]
    simp only [Option.map_none']
    rw [if_neg (by omega)]

theorem orbit_fill_init {F : Type} [FloatArith F] (theta : F) (n : Nat) (hn : 0 < n) :
    (List.replicate n (Vector3.zero : Vector3 F)).set 0 Vector3.Up
      = (List.range n).map (fun i => if i ≤ 0 then rotationOrbit theta i else Vector3.zero) := by
  apply List.ext_getElem?
  intro i
  rw [List.getElem?_set]
  simp only [List.getElem?_map, List.length_replicate, List.getElem?_replicate]
  by_cases hi : i < n
  · rw [List.getElem?_range hi]
    simp only [Option.map_some']
    by_cases h0 : 0 = i
    · subst h0
      simp [hn, rotationOrbit]
    · rw [if_neg h0, if_pos hi, if_neg (by omega)]
  · have hnone : (List.range n)[i]? = none := List.getElem?_eq_none (by simp; omega)
    rw [hnone, if_neg (by omega), if_neg hi]
    rfl

theorem orbit_fill_loop {F : Type} [FloatArith F] (theta : F) (n k : Nat) (hk : k < n) :
    (List.range k).foldl (fun st (j : Nat) =>
        st.set ((1 : Int) + (j : Int)).toNat
          ((st.getD ((1 : Int) + (j : Int) - 1).toNat Vector3.zero).RotatedZ theta))
        ((List.replicate n (Vector3.zero : Vector3 F)).set 0 Vector3.Up)
      = (List.range n).map (fun i => if i ≤ k then rotationOrbit theta i else Vector3.zero) := by
  induction k with
  | zero => exact orbit_fill_init theta n hk
  | succ k ih =>
    rw [List.range_succ, List.foldl_append, ih (by omega)]
    simp only [List.foldl_cons, List.foldl_nil]
    have e1 : ((1 : Int) + (k : Int)).toNat = k + 1 := by omega
    have e2 : ((1 : Int) + (k : Int) - 1).toNat = k := by omega
    rw [e1, e2]
    have hget : ((List.range n).map
        (fun i => if i ≤ k then rotationOrbit theta i else Vector3.zero)).getD k Vector3.zero
        = rotationOrbit theta k := by
      rw [List.getD_eq_getElem?_getD, List.getElem?_map, List.getElem?_range (by omega)]
      simp
    rw [hget]
    exact orbit_fill_step theta n k hk

theorem circleVertexPos_eq {F : Type} [FloatArith F] (n : Int) (hn : 1 ≤ n) :
    (circleVertexPos n : List (Vector3 F))
      = (List.range n.toNat).map
          (rotationOrbit (FloatArith.div (FloatArith.lit 360) (FloatArith.ofInt n))) := by
  unfold circleVertexPos forLoop
  simp only []
  have hc : (n - 1).toNat = n.toNat - 1 := by omega
  rw [hc, orbit_fill_loop _ n.toNat (n.toNat - 1) (by omega)]
  apply List.map_congr_left
  intro i hi
  have hi2 : i < n.toNat := List.mem_range.mp hi
  rw [if_pos (by omega)]

theorem RenderCircle_fst_orbit {F : Type} [FloatArith F] (r : Int) (ov : List (Vector3 F))
    (oi : List Nat) :
    (RenderCircle r ov oi).1
      = (List.range (effectiveResolution r).toNat).map
          (rotationOrbit
            (FloatArith.div (FloatArith.lit 360) (FloatArith.ofInt (effectiveResolution r)))) := by
  have hb := effectiveResolution_bounds r
  rw [RenderCircle_fst, circleVertexPos_eq _ (by omega)]

theorem fanIndices_triangle (n t : Nat) (hn : 3 ≤ n) (ht : t < n - 1) :
    ∃ a b c, (fanIndices n)[3 * t]? = some a ∧ (fanIndices n)[3 * t + 1]? = some b
      ∧ (fanIndices n)[3 * t + 2]? = some c
      ∧ a ≠ b ∧ b ≠ c ∧ a ≠ c ∧ a < n ∧ b < n ∧ c < n := by
  have hlen : ((List.range (n - 2)).flatMap (fun k => [0, k + 1, k + 2])).length
      = 3 * (n - 2) := by
    rw [length_flatMap_const (fun k => [0, k + 1, k + 2]) 3 (fun _ => rfl), List.length_range]
    omega
  by_cases hlast : t = n - 2
  · refine ⟨0, n - 1, 1, ?_, ?_, ?_, by omega, by omega, by omega, by omega, by omega, by omega⟩
    · unfold fanIndices
      rw [List.getElem?_append_right (by rw [hlen]; omega), hlen]
      have e : 3 * t - 3 * (n - 2) = 0 := by omega
      rw [e]
      rfl
    · unfold fanIndices
      rw [List.getElem?_append_right (by rw [hlen]; omega), hlen]
      have e : 3 * t + 1 - 3 * (n - 2) = 1 := by omega
      rw [e]
      rfl
    · unfold fanIndices
      rw [List.getElem?_append_right (by rw [hlen]; omega), hlen]
      have e : 3 * t + 2 - 3 * (n - 2) = 2 := by omega
      rw [e]
      rfl
  · have ht2 : t < (List.range (n - 2)).length := by rw [List.length_range]; omega
    have hget : ∀ j, j < 3 →
        (fanIndices n)[t * 3 + j]? = ([0, t + 1, t + 2] : List Nat)[j]? := by
      intro j hj
      unfold fanIndices
      rw [List.getElem?_append_left (by rw [hlen]; omega)]
      rw [getElem?_flatMap_const (fun k => [0, k + 1, k + 2]) 3 (fun _ => rfl) _ t j ht2 hj]
      simp
    have e0 := hget 0 (by omega)
    have e1 := hget 1 (by omega)
    have e2 := hget 2 (by omega)
    rw [Nat.mul_comm] at e0 e1 e2
    refine ⟨0, t + 1, t + 2, ?_, ?_, ?_, by omega, by omega, by omega, by omega, by omega,
      by omega⟩
    · rw [← Nat.add_zero (3 * t), e0]; rfl
    · rw [e1]; rfl
    · rw [e2]; rfl

/-! ## The claims on the boundary check, the rotation and the main loop -/

/-- C11: `checkBoundaries` changes nothing but `Position.x` and `Position.y`: `Velocity`
(all three components), `Mass`, `Size` and `Position.z` are after the call what they were
before, whether or not a reflection happened. -/
theorem C11_checkBoundaries_frame {F : Type} [FloatArith F] (p : Particle F) :
    (checkBoundaries p).Velocity = p.Velocity
      ∧ (checkBoundaries p).Velocity.x = p.Velocity.x
      ∧ (checkBoundaries p).Velocity.y = p.Velocity.y
      ∧ (checkBoundaries p).Velocity.z = p.Velocity.z
      ∧ (checkBoundaries p).Mass = p.Mass
      ∧ (checkBoundaries p).Size = p.Size
      ∧ (checkBoundaries p).Position.z = p.Position.z := by
  unfold checkBoundaries
  simp only []
  split_ifs <;> exact ⟨rfl, rfl, rfl, rfl, rfl, rfl, rfl⟩

/-- C16: when the effective resolution is `n >= 3`, `RenderCircle` leaves `n` vertices of
which vertex `0` is exactly `(0, 1, 0)` and, for `1 <= i < n`, vertex `i` is vertex `i - 1`
after `RotatedZ(360 / n)`: each vertex is the rotation of the one before it, not a
function of the absolute angle `i * 360 / n`; and every vertex has `z = 0`. -/
theorem C16_RenderCircle_vertices {F : Type} [FloatArith F] (n : Nat) (r : Int)
    (ov : List (Vector3 F)) (oi : List Nat) (hr : effectiveResolution r = (n : Int)) :
    3 ≤ n
      ∧ (RenderCircle r ov oi).1.length = n
      ∧ (RenderCircle r ov oi).1[0]?
          = some ⟨FloatArith.ofInt 0, FloatArith.ofInt 1, FloatArith.ofInt 0⟩
      ∧ (∀ i, 1 ≤ i → i < n → ∃ prev, (RenderCircle r ov oi).1[i - 1]? = some prev
          ∧ (RenderCircle r ov oi).1[i]?
              = some (prev.RotatedZ
                  (FloatArith.div (FloatArith.lit 360) (FloatArith.ofInt (n : Int)))))
      ∧ ∀ v ∈ (RenderCircle r ov oi).1, v.z = FloatArith.ofInt 0 := by
  have hb := effectiveResolution_bounds r
  have hn : (effectiveResolution r).toNat = n := by omega
  rw [RenderCircle_fst_orbit, hr] at *
  rw [Int.toNat_ofNat]
  refine ⟨by omega, by simp, ?_, ?_, ?_⟩
  · rw [List.getElem?_map, List.getElem?_range (by omega)]
    rfl
  · intro i h1 hin
    obtain ⟨j, rfl⟩ : ∃ j, i = j + 1 := ⟨i - 1, by omega⟩
    refine ⟨rotationOrbit
      (FloatArith.div (FloatArith.lit 360) (FloatArith.ofInt (n : Int))) j, ?_, ?_⟩
    · rw [List.getElem?_map, Nat.add_sub_cancel, List.getElem?_range (by omega)]
      rfl
    · rw [List.getElem?_map, List.getElem?_range hin]
      rfl
  · intro v hv
    rw [List.mem_map] at hv
    obtain ⟨i, _, rfl⟩ := hv
    exact rotationOrbit_z _ i

/-- Witness of C16 at the request `-5`, effective resolution `5`. -/
theorem C16_RenderCircle_vertices_witness :
    3 ≤ 5
      ∧ (RenderCircle (-5) [(⟨9, 9, 9⟩ : Vector3 ℚ)] [5, 5]).1.length = 5
      ∧ (RenderCircle (-5) [(⟨9, 9, 9⟩ : Vector3 ℚ)] [5, 5]).1[0]?
          = some ⟨FloatArith.ofInt 0, FloatArith.ofInt 1, FloatArith.ofInt 0⟩
      ∧ (∀ i, 1 ≤ i → i < 5 → ∃ prev,
          (RenderCircle (-5) [(⟨9, 9, 9⟩ : Vector3 ℚ)] [5, 5]).1[i - 1]? = some prev
          ∧ (RenderCircle (-5) [(⟨9, 9, 9⟩ : Vector3 ℚ)] [5, 5]).1[i]?
              = some (prev.RotatedZ
                  (FloatArith.div (FloatArith.lit 360) (FloatArith.ofInt ((5 : Nat) : Int)))))
      ∧ ∀ v ∈ (RenderCircle (-5) [(⟨9, 9, 9⟩ : Vector3 ℚ)] [5, 5]).1,
          v.z = FloatArith.ofInt 0 :=
  C16_RenderCircle_vertices 5 (-5) [(⟨9, 9, 9⟩ : Vector3 ℚ)] [5, 5] (by decide)

/-- C19: when the effective resolution is `n >= 3`, the index list of `RenderCircle` is
`n - 1` triangles, and each of them (the entries `3t`, `3t + 1`, `3t + 2`) consists of
three pairwise distinct indices, each strictly less than `n`: no triangle is degenerate
and no index points past the vertex list of the shape. -/
theorem C19_RenderCircle_triangles {F : Type} [FloatArith F] (n : Nat) (r : Int)
    (ov : List (Vector3 F)) (oi : List Nat) (hr : effectiveResolution r = (n : Int)) :
    3 ≤ n
      ∧ (RenderCircle r ov oi).2.length = 3 * (n - 1)
      ∧ (RenderCircle r ov oi).1.length = n
      ∧ ∀ t, t < n - 1 → ∃ a b c, (RenderCircle r ov oi).2[3 * t]? = some a
          ∧ (RenderCircle r ov oi).2[3 * t + 1]? = some b
          ∧ (RenderCircle r ov oi).2[3 * t + 2]? = some c
          ∧ a ≠ b ∧ b ≠ c ∧ a ≠ c ∧ a < n ∧ b < n ∧ c < n := by
  have hb := effectiveResolution_bounds r
  have hn : (effectiveResolution r).toNat = n := by omega
  rw [RenderCircle_snd, RenderCircle_fst, circleVertexPos_length, hn]
  exact ⟨by omega, fanIndices_length n (by omega), rfl,
    fun t ht => fanIndices_triangle n t (by omega) ht⟩

/-- Witness of C19 at the request `3`, the triangle. -/
theorem C19_RenderCircle_triangles_witness :
    3 ≤ 3
      ∧ (RenderCircle 3 [(⟨9, 9, 9⟩ : Vector3 ℚ)] [5, 5]).2.length = 3 * (3 - 1)
      ∧ (RenderCircle 3 [(⟨9, 9, 9⟩ : Vector3 ℚ)] [5, 5]).1.length = 3
      ∧ ∀ t, t < 3 - 1 → ∃ a b c,
          (RenderCircle 3 [(⟨9, 9, 9⟩ : Vector3 ℚ)] [5, 5]).2[3 * t]? = some a
          ∧ (RenderCircle 3 [(⟨9, 9, 9⟩ : Vector3 ℚ)] [5, 5]).2[3 * t + 1]? = some b
          ∧ (RenderCircle 3 [(⟨9, 9, 9⟩ : Vector3 ℚ)] [5, 5]).2[3 * t + 2]? = some c
          ∧ a ≠ b ∧ b ≠ c ∧ a ≠ c ∧ a < 3 ∧ b < 3 ∧ c < 3 :=
  C19_RenderCircle_triangles 3 3 [(⟨9, 9, 9⟩ : Vector3 ℚ)] [5, 5] (by decide)

/-- C17, as stated, fails for `z`: `RotateZ` leaves `z` as it is, so the vector
`(1, 0, 0.000001)` keeps a `z` that is neither `0` nor of absolute value `>= 1e-5`. -/
theorem C17_counterexample :
    ((⟨1, 0, 1 / 1000000⟩ : Vector3 ℚ).RotateZ 90).z = 1 / 1000000
      ∧ ((⟨1, 0, 1 / 1000000⟩ : Vector3 ℚ).RotateZ 90).z ≠ 0
      ∧ |((⟨1, 0, 1 / 1000000⟩ : Vector3 ℚ).RotateZ 90).z| < 1 / 100000 := by
  have hz : ((⟨1, 0, 1 / 1000000⟩ : Vector3 ℚ).RotateZ 90).z = 1 / 1000000 := rfl
  refine ⟨hz, ?_, ?_⟩
  · rw [hz]
    norm_num
  · rw [hz, abs_of_pos (by norm_num)]
    norm_num

/-- C17, amended: for every vector `v` and angle `theta`, after `RotateZ(theta)` the `x` and
`y` components are `(x*cos t - y*sin t, x*sin t + y*cos t)` with `t = theta*pi/180`,
computed from the original `x` and `y`, each replaced by exactly `0` when its absolute
value is below `1e-5`: each of `x` and `y` is either `0` or not below `1e-5` in absolute
value (in exact arithmetic, of absolute value `>= 1e-5`); `z` is left as it was. -/
theorem C17_RotateZ_formula :
    (∀ (F : Type) [FloatArith F] (v : Vector3 F) (theta : F),
        (v.RotateZ theta).x
            = (if FloatArith.lt (FloatArith.fabs
                  (FloatArith.sub
                    (FloatArith.mul v.x (FloatArith.cos (FloatArith.mul theta
                      (FloatArith.div (FloatArith.lit M_PI) (FloatArith.ofInt 180)))))
                    (FloatArith.mul v.y (FloatArith.sin (FloatArith.mul theta
                      (FloatArith.div (FloatArith.lit M_PI) (FloatArith.ofInt 180)))))))
                  (FloatArith.lit (1 / 100000)) = true
              then FloatArith.ofInt 0
              else FloatArith.sub
                    (FloatArith.mul v.x (FloatArith.cos (FloatArith.mul theta
                      (FloatArith.div (FloatArith.lit M_PI) (FloatArith.ofInt 180)))))
                    (FloatArith.mul v.y (FloatArith.sin (FloatArith.mul theta
                      (FloatArith.div (FloatArith.lit M_PI) (FloatArith.ofInt 180))))))
          ∧ (v.RotateZ theta).y
            = (if FloatArith.lt (FloatArith.fabs
                  (FloatArith.add
                    (FloatArith.mul v.x (FloatArith.sin (FloatArith.mul theta
                      (FloatArith.div (FloatArith.lit M_PI) (FloatArith.ofInt 180)))))
                    (FloatArith.mul v.y (FloatArith.cos (FloatArith.mul theta
                      (FloatArith.div (FloatArith.lit M_PI) (FloatArith.ofInt 180)))))))
                  (FloatArith.lit (1 / 100000)) = true
              then FloatArith.ofInt 0
              else FloatArith.add
                    (FloatArith.mul v.x (FloatArith.sin (FloatArith.mul theta
                      (FloatArith.div (FloatArith.lit M_PI) (FloatArith.ofInt 180)))))
                    (FloatArith.mul v.y (FloatArith.cos (FloatArith.mul theta
                      (FloatArith.div (FloatArith.lit M_PI) (FloatArith.ofInt 180))))))
          ∧ (v.RotateZ theta).z = v.z
          ∧ ((v.RotateZ theta).x = FloatArith.ofInt 0
              ∨ FloatArith.lt (FloatArith.fabs (v.RotateZ theta).x)
                  (FloatArith.lit (1 / 100000)) = false)
          ∧ ((v.RotateZ theta).y = FloatArith.ofInt 0
              ∨ FloatArith.lt (FloatArith.fabs (v.RotateZ theta).y)
                  (FloatArith.lit (1 / 100000)) = false))
      ∧ ∀ (v : Vector3 ℚ) (theta : ℚ),
          ((v.RotateZ theta).x = 0 ∨ 1 / 100000 ≤ |(v.RotateZ theta).x|)
            ∧ ((v.RotateZ theta).y = 0 ∨ 1 / 100000 ≤ |(v.RotateZ theta).y|) := by
  have gen : ∀ (F : Type) [FloatArith F] (v : Vector3 F) (theta : F),
      ((v.RotateZ theta).x = FloatArith.ofInt 0
          ∨ FloatArith.lt (FloatArith.fabs (v.RotateZ theta).x)
              (FloatArith.lit (1 / 100000)) = false)
        ∧ ((v.RotateZ theta).y = FloatArith.ofInt 0
          ∨ FloatArith.lt (FloatArith.fabs (v.RotateZ theta).y)
              (FloatArith.lit (1 / 100000)) = false) := by
    intro F _ v theta
    unfold Vector3.RotateZ
    simp only []
    constructor
    · split_ifs with h
      · exact Or.inl rfl
      · exact Or.inr (by simpa using h)
    · split_ifs with h
      · exact Or.inl rfl
      · exact Or.inr (by simpa using h)
  refine ⟨?_, ?_⟩
  · intro F _ v theta
    exact ⟨rfl, rfl, rfl, (gen F v theta).1, (gen F v theta).2⟩
  · intro v theta
    obtain ⟨hx, hy⟩ := gen ℚ v theta
    constructor
    · rcases hx with h | h
      · exact Or.inl h
      · exact Or.inr (not_lt.mp (of_decide_eq_false h))
    · rcases hy with h | h
      · exact Or.inl h
      · exact Or.inr (not_lt.mp (of_decide_eq_false h))

/-- C18: one iteration of the main loop, as a step on the particles and `prevTime` given
the current time: when `crntTime - prevTime < HOST_FRAMTETIME` (more generally, when
`crntTime - prevTime >= HOST_FRAMTETIME` is false) nothing changes; otherwise the particles
are those of exactly one `UpdateParticles` with `dt = HOST_FRAMTETIME`, whatever the elapsed
time, followed by `checkBoundaries` on every particle, and `prevTime` becomes `crntTime`. -/
theorem C18_mainLoopStep {F : Type} [FloatArith F] [FloatOrderLaws F]
    (particleShape : ParticleShape F) (crntTime : F) (st : MainState F) :
    (FloatArith.lt (FloatArith.sub crntTime st.prevTime) (FloatArith.lit HOST_FRAMTETIME) = true →
        mainLoopStep particleShape crntTime st = st)
      ∧ (FloatArith.le (FloatArith.lit HOST_FRAMTETIME) (FloatArith.sub crntTime st.prevTime)
            = false →
        mainLoopStep particleShape crntTime st = st)
      ∧ (FloatArith.le (FloatArith.lit HOST_FRAMTETIME) (FloatArith.sub crntTime st.prevTime)
            = true →
        (mainLoopStep particleShape crntTime st).particles
            = (UpdateParticles st.particles (FloatArith.lit HOST_FRAMTETIME)).map checkBoundaries
          ∧ (mainLoopStep particleShape crntTime st).prevTime = crntTime
          ∧ (mainLoopStep particleShape crntTime st).particles.length = st.particles.length) := by
  refine ⟨?_, ?_, ?_⟩
  · intro h
    have hle : FloatArith.le (FloatArith.lit HOST_FRAMTETIME)
        (FloatArith.sub crntTime st.prevTime) = false := by
      cases hc : FloatArith.le (FloatArith.lit HOST_FRAMTETIME)
          (FloatArith.sub crntTime st.prevTime) with
      | false => rfl
      | true =>
        have := FloatOrderLaws.not_lt_of_le _ _ hc
        rw [h] at this
        exact absurd this (by decide)
    unfold mainLoopStep
    rw [if_neg (by rw [hle]; decide)]
  · intro hle
    unfold mainLoopStep
    rw [if_neg (by rw [hle]; decide)]
  · intro hle
    unfold mainLoopStep
    rw [if_pos hle]
    refine ⟨rfl, rfl, ?_⟩
    simp [UpdateParticles]

/-- Witness of C18 in exact arithmetic, from `prevTime = 0`: at the current time `0.01`
nothing changes; at the current time `1`, sixty tick intervals later, the particles are
those of a single update with `dt = HOST_FRAMTETIME`. -/
theorem C18_mainLoopStep_witness :
    mainLoopStep sampleShape (1 / 100) sampleState = sampleState
      ∧ (mainLoopStep sampleShape 1 sampleState).particles
          = (UpdateParticles sampleState.particles (FloatArith.lit HOST_FRAMTETIME)).map
              checkBoundaries
      ∧ (mainLoopStep sampleShape 1 sampleState).prevTime = 1
      ∧ (mainLoopStep sampleShape 1 sampleState).particles.length
          = sampleState.particles.length :=
  ⟨(C18_mainLoopStep sampleShape (1 / 100) sampleState).1
      (by norm_num [FloatArith.lt, FloatArith.sub, FloatArith.lit, sampleState,
        HOST_FRAMTETIME]),
    (C18_mainLoopStep sampleShape 1 sampleState).2.2
      (by norm_num [FloatArith.le, FloatArith.sub, FloatArith.lit, sampleState,
        HOST_FRAMTETIME])⟩

theorem Particle_eq_of_fields {F : Type} (p q : Particle F)
    (hx : p.Position.x = q.Position.x) (hy : p.Position.y = q.Position.y)
    (hz : p.Position.z = q.Position.z) (hv : p.Velocity = q.Velocity) (hm : p.Mass = q.Mass)
    (hs : p.Size = q.Size) : p = q := by
  obtain ⟨⟨px, py, pz⟩, pv, pm, ps⟩ := p
  obtain ⟨⟨qx, qy, qz⟩, qv, qm, qs⟩ := q
  simp only at hx hy hz hv hm hs
  subst hx hy hz hv hm hs
  rfl

theorem reflect_twice {F : Type} [FloatArith F] [FloatNegLaws F] (c : F) :
    (if (FloatArith.lt (FloatArith.lit 1)
            (if (FloatArith.lt (FloatArith.lit 1) c
                || FloatArith.lt c (FloatArith.neg (FloatArith.lit 1))) = true
              then FloatArith.neg c else c)
          || FloatArith.lt
            (if (FloatArith.lt (FloatArith.lit 1) c
                || FloatArith.lt c (FloatArith.neg (FloatArith.lit 1))) = true
              then FloatArith.neg c else c)
            (FloatArith.neg (FloatArith.lit 1))) = true
      then FloatArith.neg
        (if (FloatArith.lt (FloatArith.lit 1) c
            || FloatArith.lt c (FloatArith.neg (FloatArith.lit 1))) = true
          then FloatArith.neg c else c)
      else (if (FloatArith.lt (FloatArith.lit 1) c
            || FloatArith.lt c (FloatArith.neg (FloatArith.lit 1))) = true
          then FloatArith.neg c else c)) = c := by
  by_cases h : (FloatArith.lt (FloatArith.lit 1) c
      || FloatArith.lt c (FloatArith.neg (FloatArith.lit 1))) = true
  · rw [if_pos h]
    have h2 : (FloatArith.lt (FloatArith.lit 1) (FloatArith.neg c)
        || FloatArith.lt (FloatArith.neg c) (FloatArith.neg (FloatArith.lit 1))) = true := by
      rw [Bool.or_eq_true] at h ⊢
      rcases h with h | h
      · exact Or.inr (FloatNegLaws.neg_lt_of_gt c h)
      · exact Or.inl (FloatNegLaws.gt_neg_of_lt c h)
    rw [if_pos h2, FloatNegLaws.neg_neg]
  · rw [if_neg h, if_neg h]

theorem reflect_outside {F : Type} [FloatArith F] [FloatNegLaws F] (c : F)
    (h : FloatArith.lt (FloatArith.lit 1) c = true
      ∨ FloatArith.lt c (FloatArith.neg (FloatArith.lit 1)) = true) :
    FloatArith.lt (FloatArith.lit 1)
        (if (FloatArith.lt (FloatArith.lit 1) c
            || FloatArith.lt c (FloatArith.neg (FloatArith.lit 1))) = true
          then FloatArith.neg c else c) = true
      ∨ FloatArith.lt
        (if (FloatArith.lt (FloatArith.lit 1) c
            || FloatArith.lt c (FloatArith.neg (FloatArith.lit 1))) = true
          then FloatArith.neg c else c) (FloatArith.neg (FloatArith.lit 1)) = true := by
  rw [if_pos (by rw [Bool.or_eq_true]; exact h)]
  rcases h with h | h
  · exact Or.inr (FloatNegLaws.neg_lt_of_gt c h)
  · exact Or.inl (FloatNegLaws.gt_neg_of_lt c h)

theorem reflect_fabs {F : Type} [FloatArith F] [FloatNegLaws F] (c : F) :
    FloatArith.fabs
        (if (FloatArith.lt (FloatArith.lit 1) c
            || FloatArith.lt c (FloatArith.neg (FloatArith.lit 1))) = true
          then FloatArith.neg c else c) = FloatArith.fabs c := by
  split_ifs
  · exact FloatNegLaws.fabs_neg c
  · rfl

theorem checkBoundaries_frame {F : Type} [FloatArith F] (p : Particle F) :
    (checkBoundaries p).Velocity = p.Velocity ∧ (checkBoundaries p).Mass = p.Mass
      ∧ (checkBoundaries p).Size = p.Size
      ∧ (checkBoundaries p).Position.z = p.Position.z := by
  unfold checkBoundaries
  simp only []
  split_ifs <;> exact ⟨rfl, rfl, rfl, rfl⟩

/-- C20: `checkBoundaries` is an involution that keeps the absolute value of every
position component, for every arithmetic whose negation is lawful:
`checkBoundaries(checkBoundaries(p)) = p`, and a component that is outside `[-1, 1]`
before the call is outside `[-1, 1]` after it. -/
theorem C20_checkBoundaries_involution {F : Type} [FloatArith F] [FloatNegLaws F]
    (p : Particle F) :
    checkBoundaries (checkBoundaries p) = p
      ∧ FloatArith.fabs (checkBoundaries p).Position.x = FloatArith.fabs p.Position.x
      ∧ FloatArith.fabs (checkBoundaries p).Position.y = FloatArith.fabs p.Position.y
      ∧ FloatArith.fabs (checkBoundaries p).Position.z = FloatArith.fabs p.Position.z
      ∧ ((FloatArith.lt (FloatArith.lit 1) p.Position.x = true
            ∨ FloatArith.lt p.Position.x (FloatArith.neg (FloatArith.lit 1)) = true) →
          (FloatArith.lt (FloatArith.lit 1) (checkBoundaries p).Position.x = true
            ∨ FloatArith.lt (checkBoundaries p).Position.x (FloatArith.neg (FloatArith.lit 1))
                = true))
      ∧ ((FloatArith.lt (FloatArith.lit 1) p.Position.y = true
            ∨ FloatArith.lt p.Position.y (FloatArith.neg (FloatArith.lit 1)) = true) →
          (FloatArith.lt (FloatArith.lit 1) (checkBoundaries p).Position.y = true
            ∨ FloatArith.lt (checkBoundaries p).Position.y (FloatArith.neg (FloatArith.lit 1))
                = true)) := by
  obtain ⟨hv, hm, hs, hz⟩ := checkBoundaries_frame p
  obtain ⟨hv2, hm2, hs2, hz2⟩ := checkBoundaries_frame (checkBoundaries p)
  refine ⟨?_, ?_, ?_, ?_, ?_, ?_⟩
  · apply Particle_eq_of_fields
    · rw [checkBoundaries_x, checkBoundaries_x]
      exact reflect_twice p.Position.x
    · rw [checkBoundaries_y, checkBoundaries_y]
      exact reflect_twice p.Position.y
    · rw [hz2, hz]
    · rw [hv2, hv]
    · rw [hm2, hm]
    · rw [hs2, hs]
  · rw [checkBoundaries_x]
    exact reflect_fabs p.Position.x
  · rw [checkBoundaries_y]
    exact reflect_fabs p.Position.y
  · rw [hz]
  · intro h
    rw [checkBoundaries_x]
    exact reflect_outside p.Position.x h
  · intro h
    rw [checkBoundaries_y]
    exact reflect_outside p.Position.y h

/-- Witness of C20 in exact arithmetic, at the position `(3/2, -2, 3)`, outside the range
on both axes. -/
theorem C20_checkBoundaries_involution_witness :
    checkBoundaries (checkBoundaries (sampleParticle ⟨3 / 2, -2, 3⟩ ⟨1, 1, 0⟩))
        = sampleParticle ⟨3 / 2, -2, 3⟩ ⟨1, 1, 0⟩
      ∧ (FloatArith.lt (FloatArith.lit 1)
            (checkBoundaries (sampleParticle ⟨3 / 2, -2, 3⟩ ⟨1, 1, 0⟩)).Position.x = true
          ∨ FloatArith.lt (checkBoundaries (sampleParticle ⟨3 / 2, -2, 3⟩ ⟨1, 1, 0⟩)).Position.x
              (FloatArith.neg (FloatArith.lit 1)) = true)
      ∧ (FloatArith.lt (FloatArith.lit 1)
            (checkBoundaries (sampleParticle ⟨3 / 2, -2, 3⟩ ⟨1, 1, 0⟩)).Position.y = true
          ∨ FloatArith.lt (checkBoundaries (sampleParticle ⟨3 / 2, -2, 3⟩ ⟨1, 1, 0⟩)).Position.y
              (FloatArith.neg (FloatArith.lit 1)) = true) :=
  ⟨(C20_checkBoundaries_involution (sampleParticle ⟨3 / 2, -2, 3⟩ ⟨1, 1, 0⟩)).1,
    (C20_checkBoundaries_involution (sampleParticle ⟨3 / 2, -2, 3⟩ ⟨1, 1, 0⟩)).2.2.2.2.1
      (Or.inl (by norm_num [FloatArith.lt, FloatArith.lit, sampleParticle])),
    (C20_checkBoundaries_involution (sampleParticle ⟨3 / 2, -2, 3⟩ ⟨1, 1, 0⟩)).2.2.2.2.2
      (Or.inr (by norm_num [FloatArith.lt, FloatArith.lit, FloatArith.neg, sampleParticle]))⟩

/-! ## Ticks in exact arithmetic -/

theorem simulationTick_getElem? {F : Type} [FloatArith F] (particles : List (Particle F))
    (dt : F) (i : Nat) :
    (simulationTick particles dt)[i]?
      = (particles[i]?).map (fun p => checkBoundaries
          { p with Position := p.Position.add (p.Velocity.smul dt) }) := by
  unfold simulationTick UpdateParticles
  rw [List.getElem?_map, List.getElem?_map]
  cases particles[i]? <;> rfl

theorem simulationTick_length {F : Type} [FloatArith F] (particles : List (Particle F))
    (dt : F) : (simulationTick particles dt).length = particles.length := by
  unfold simulationTick UpdateParticles
  simp

theorem exact_checkBoundaries_x (p : Particle ℚ) :
    (checkBoundaries p).Position.x
      = if 1 < p.Position.x ∨ p.Position.x < -1 then -p.Position.x else p.Position.x := by
  rw [checkBoundaries_x]
  simp only [FloatArith.lt, FloatArith.lit, FloatArith.neg, Bool.or_eq_true, decide_eq_true_eq]

theorem exact_checkBoundaries_y (p : Particle ℚ) :
    (checkBoundaries p).Position.y
      = if 1 < p.Position.y ∨ p.Position.y < -1 then -p.Position.y else p.Position.y := by
  rw [checkBoundaries_y]
  simp only [FloatArith.lt, FloatArith.lit, FloatArith.neg, Bool.or_eq_true, decide_eq_true_eq]

theorem exact_reflect_return (x s : ℚ) (hin : -1 ≤ x ∧ x ≤ 1)
    (hout : (if 1 < x + s ∨ x + s < -1 then -(x + s) else x + s) < -1
      ∨ 1 < (if 1 < x + s ∨ x + s < -1 then -(x + s) else x + s)) :
    (if 1 < (if 1 < x + s ∨ x + s < -1 then -(x + s) else x + s) + s
          ∨ (if 1 < x + s ∨ x + s < -1 then -(x + s) else x + s) + s < -1
        then -((if 1 < x + s ∨ x + s < -1 then -(x + s) else x + s) + s)
        else (if 1 < x + s ∨ x + s < -1 then -(x + s) else x + s) + s) = -x := by
  by_cases h : 1 < x + s ∨ x + s < -1
  · rw [if_pos h]
    have e : -(x + s) + s = -x := by ring
    rw [e, if_neg]
    rintro (h1 | h1) <;> linarith [hin.1, hin.2]
  · rw [if_neg h] at hout
    rcases hout with h1 | h1
    · exact absurd (Or.inr h1) h
    · exact absurd (Or.inl h1) h

/-- C12, as stated, fails for the `z` component, which `UpdateParticles` integrates and
`checkBoundaries` never reflects: from `z = 0` with velocity `2` along `z` and `dt = 1`,
`z` is `2` after one tick, outside `[-1, 1]`, and `4` after the next, still outside. -/
theorem C12_counterexample :
    (-1 ≤ (sampleParticle ⟨0, 0, 0⟩ ⟨0, 0, 2⟩).Position.z
        ∧ (sampleParticle ⟨0, 0, 0⟩ ⟨0, 0, 2⟩).Position.z ≤ 1)
      ∧ simulationTick [sampleParticle ⟨0, 0, 0⟩ ⟨0, 0, 2⟩] 1
          = [sampleParticle ⟨0, 0, 2⟩ ⟨0, 0, 2⟩]
      ∧ simulationTick (simulationTick [sampleParticle ⟨0, 0, 0⟩ ⟨0, 0, 2⟩] 1) 1
          = [sampleParticle ⟨0, 0, 4⟩ ⟨0, 0, 2⟩]
      ∧ (1 : ℚ) < (sampleParticle ⟨0, 0, 2⟩ ⟨0, 0, 2⟩).Position.z
      ∧ ¬ (-1 ≤ (sampleParticle ⟨0, 0, 4⟩ ⟨0, 0, 2⟩).Position.z
          ∧ (sampleParticle ⟨0, 0, 4⟩ ⟨0, 0, 2⟩).Position.z ≤ 1) := by
  have t1 : simulationTick [sampleParticle ⟨0, 0, 0⟩ ⟨0, 0, 2⟩] 1
      = [sampleParticle ⟨0, 0, 2⟩ ⟨0, 0, 2⟩] := by
    simp only [simulationTick, UpdateParticles, sampleParticle, Vector3.add, Vector3.smul,
      FloatArith.add, FloatArith.mul, List.map_cons, List.map_nil, checkBoundaries,
      FloatArith.lt, FloatArith.lit, FloatArith.neg]
    norm_num
  have t2 : simulationTick [sampleParticle ⟨0, 0, 2⟩ ⟨0, 0, 2⟩] 1
      = [sampleParticle ⟨0, 0, 4⟩ ⟨0, 0, 2⟩] := by
    simp only [simulationTick, UpdateParticles, sampleParticle, Vector3.add, Vector3.smul,
      FloatArith.add, FloatArith.mul, List.map_cons, List.map_nil, checkBoundaries,
      FloatArith.lt, FloatArith.lit, FloatArith.neg]
    norm_num
  refine ⟨?_, t1, ?_, ?_, ?_⟩
  · simp only [sampleParticle]
    norm_num
  · rw [t1, t2]
  · simp only [sampleParticle]
    norm_num
  · simp only [sampleParticle]
    norm_num

/-- C12, amended: in exact arithmetic, a particle is outside the normalized range for one
tick only on the two axes that `checkBoundaries` reflects: for a position component `x` or
`y` that starts in `[-1, 1]`, whatever the velocity and `dt`, if one tick
(`UpdateParticles`, then `checkBoundaries`) leaves the component outside `[-1, 1]`, then
the next tick, with the same velocity and `dt`, leaves it inside `[-1, 1]`. -/
theorem C12_outside_for_one_tick (particles : List (Particle ℚ)) (dt : ℚ) (i : Nat)
    (p0 : Particle ℚ) (h0 : particles[i]? = some p0) :
    ∃ q1 q2, (simulationTick particles dt)[i]? = some q1
      ∧ (simulationTick (simulationTick particles dt) dt)[i]? = some q2
      ∧ q1.Velocity = p0.Velocity
      ∧ ((-1 ≤ p0.Position.x ∧ p0.Position.x ≤ 1) →
          (q1.Position.x < -1 ∨ 1 < q1.Position.x) →
          (-1 ≤ q2.Position.x ∧ q2.Position.x ≤ 1))
      ∧ ((-1 ≤ p0.Position.y ∧ p0.Position.y ≤ 1) →
          (q1.Position.y < -1 ∨ 1 < q1.Position.y) →
          (-1 ≤ q2.Position.y ∧ q2.Position.y ≤ 1)) := by
  refine ⟨checkBoundaries { p0 with Position := p0.Position.add (p0.Velocity.smul dt) },
    checkBoundaries
      { checkBoundaries { p0 with Position := p0.Position.add (p0.Velocity.smul dt) } with
        Position := (checkBoundaries
            { p0 with Position := p0.Position.add (p0.Velocity.smul dt) }).Position.add
          ((checkBoundaries
            { p0 with Position := p0.Position.add (p0.Velocity.smul dt) }).Velocity.smul dt) },
    ?_, ?_, ?_, ?_, ?_⟩
  · rw [simulationTick_getElem?, h0]
    rfl
  · rw [simulationTick_getElem?, simulationTick_getElem?, h0]
    rfl
  · exact (checkBoundaries_frame _).1
  · intro hin hout
    rw [exact_checkBoundaries_x] at hout ⊢
    rw [(checkBoundaries_frame _).1]
    have key := exact_reflect_return p0.Position.x (p0.Velocity.x * dt) hin hout
    simp only [Vector3.add, Vector3.smul, FloatArith.add, FloatArith.mul,
      exact_checkBoundaries_x] at key ⊢
    rw [key]
    constructor <;> linarith [hin.1, hin.2]
  · intro hin hout
    rw [exact_checkBoundaries_y] at hout ⊢
    rw [(checkBoundaries_frame _).1]
    have key := exact_reflect_return p0.Position.y (p0.Velocity.y * dt) hin hout
    simp only [Vector3.add, Vector3.smul, FloatArith.add, FloatArith.mul,
      exact_checkBoundaries_y] at key ⊢
    rw [key]
    constructor <;> linarith [hin.1, hin.2]

/-- Witness of the amended C12 in exact arithmetic: from `x = 0.95` with velocity `10` and `dt = 0.0167`
the particle is at `x = -1.117` after one tick and back inside, at `x = -0.95`, after two. -/
theorem C12_outside_for_one_tick_witness :
    (∃ q1 q2 : Particle ℚ,
      (simulationTick [sampleParticle ⟨0.95, 0, 0⟩ ⟨10, 0, 0⟩] 0.0167)[0]? = some q1
      ∧ (simulationTick (simulationTick [sampleParticle ⟨0.95, 0, 0⟩ ⟨10, 0, 0⟩] 0.0167)
          0.0167)[0]? = some q2
      ∧ q1.Velocity = (sampleParticle ⟨0.95, 0, 0⟩ ⟨10, 0, 0⟩).Velocity
      ∧ ((-1 ≤ (sampleParticle ⟨0.95, 0, 0⟩ ⟨10, 0, 0⟩).Position.x
            ∧ (sampleParticle ⟨0.95, 0, 0⟩ ⟨10, 0, 0⟩).Position.x ≤ 1) →
          (q1.Position.x < -1 ∨ 1 < q1.Position.x) →
          (-1 ≤ q2.Position.x ∧ q2.Position.x ≤ 1))
      ∧ ((-1 ≤ (sampleParticle ⟨0.95, 0, 0⟩ ⟨10, 0, 0⟩).Position.y
            ∧ (sampleParticle ⟨0.95, 0, 0⟩ ⟨10, 0, 0⟩).Position.y ≤ 1) →
          (q1.Position.y < -1 ∨ 1 < q1.Position.y) →
          (-1 ≤ q2.Position.y ∧ q2.Position.y ≤ 1)))
      ∧ simulationTick [sampleParticle ⟨0.95, 0, 0⟩ ⟨10, 0, 0⟩] 0.0167
          = [sampleParticle ⟨-1.117, 0, 0⟩ ⟨10, 0, 0⟩]
      ∧ simulationTick (simulationTick [sampleParticle ⟨0.95, 0, 0⟩ ⟨10, 0, 0⟩] 0.0167) 0.0167
          = [sampleParticle ⟨-0.95, 0, 0⟩ ⟨10, 0, 0⟩] := by
  have t1 : simulationTick [sampleParticle ⟨0.95, 0, 0⟩ ⟨10, 0, 0⟩] 0.0167
      = [sampleParticle ⟨-1.117, 0, 0⟩ ⟨10, 0, 0⟩] := by
    simp only [simulationTick, UpdateParticles, sampleParticle, Vector3.add, Vector3.smul,
      FloatArith.add, FloatArith.mul, List.map_cons, List.map_nil, checkBoundaries,
      FloatArith.lt, FloatArith.lit, FloatArith.neg]
    norm_num
  have t2 : simulationTick [sampleParticle ⟨-1.117, 0, 0⟩ ⟨10, 0, 0⟩] 0.0167
      = [sampleParticle ⟨-0.95, 0, 0⟩ ⟨10, 0, 0⟩] := by
    simp only [simulationTick, UpdateParticles, sampleParticle, Vector3.add, Vector3.smul,
      FloatArith.add, FloatArith.mul, List.map_cons, List.map_nil, checkBoundaries,
      FloatArith.lt, FloatArith.lit, FloatArith.neg]
    norm_num
  refine ⟨C12_outside_for_one_tick [sampleParticle ⟨0.95, 0, 0⟩ ⟨10, 0, 0⟩] 0.0167 0
    (sampleParticle ⟨0.95, 0, 0⟩ ⟨10, 0, 0⟩) rfl, t1, ?_⟩
  rw [t1, t2]

/-! ## The end-to-end scenario -/

theorem flattenVertexData_length {F : Type} (vs : List (Vector3 F)) :
    (flattenVertexData vs).length = 3 * vs.length := by
  unfold flattenVertexData
  have hbody : (fun (vertexData : List F) (vertex : Vector3 F) =>
      vecPush (vecPush (vecPush vertexData vertex.x) vertex.y) vertex.z)
      = (fun vertexData vertex => vertexData ++ [vertex.x, vertex.y, vertex.z]) := by
    funext vertexData vertex
    simp [vecPush]
  rw [hbody, foldl_append_flatMap, List.nil_append,
    length_flatMap_const (fun (vertex : Vector3 F) => [vertex.x, vertex.y, vertex.z]) 3
      (fun _ => rfl)]
  omega

theorem GenerateParticleIndices_length {F : Type} (particleCount : Int)
    (shape : ParticleShape F) (out : List Nat) :
    (GenerateParticleIndices particleCount shape out).length
      = particleCount.toNat * shape.indices.length := by
  rw [GenerateParticleIndices_eq,
    length_flatMap_const _ shape.indices.length (fun _ => by simp), List.length_range]

theorem tick_buffer_lengths {F : Type} [FloatArith F] (particles : List (Particle F)) (dt : F)
    (r : Int) (particleCount : Int) (outV : List (Vector3 F)) (outI : List Nat) :
    (GenerateParticleVertices (simulationTick particles dt) (ParticleShape.ctor r) outV).length
        = particles.length * (effectiveResolution r).toNat
      ∧ (flattenVertexData
          (GenerateParticleVertices (simulationTick particles dt) (ParticleShape.ctor r)
            outV)).length
        = 3 * (particles.length * (effectiveResolution r).toNat)
      ∧ (GenerateParticleIndices particleCount (ParticleShape.ctor r : ParticleShape F)
          outI).length
        = particleCount.toNat * (3 * ((effectiveResolution r).toNat - 1)) := by
  have hb := effectiveResolution_bounds r
  have h1 : (GenerateParticleVertices (simulationTick particles dt) (ParticleShape.ctor r)
      outV).length = particles.length * (effectiveResolution r).toNat := by
    rw [GenerateParticleVertices_length, simulationTick_length, ctor_localVertices_length]
  refine ⟨h1, ?_, ?_⟩
  · rw [flattenVertexData_length, h1]
  · rw [GenerateParticleIndices_length, ctor_indices, fanIndices_length _ (by omega)]

/-- C13, as stated, fails: for four particles at rest and the shape `ParticleShape(3)`,
after one tick the vertex buffer flattened to floats has `36` entries (`12` vertices of
three floats), not `12`, and `GenerateParticleIndices(4, shape)` leaves `24` indices (the
triangle shape has the two triangles `(0,1,2)` and `(0,2,1)`), not `12`. -/
theorem C13_counterexample :
    sampleParticles4.length = 4
      ∧ (flattenVertexData
          (GenerateParticleVertices (simulationTick sampleParticles4 (FloatArith.lit HOST_FRAMTETIME))
            (ParticleShape.ctor 3) [])).length = 36
      ∧ (flattenVertexData
          (GenerateParticleVertices (simulationTick sampleParticles4 (FloatArith.lit HOST_FRAMTETIME))
            (ParticleShape.ctor 3) [])).length ≠ 12
      ∧ (GenerateParticleIndices 4 (ParticleShape.ctor 3 : ParticleShape ℚ) []).length = 24
      ∧ (GenerateParticleIndices 4 (ParticleShape.ctor 3 : ParticleShape ℚ) []).length ≠ 12
      ∧ (ParticleShape.ctor 3 : ParticleShape ℚ).indices = [0, 1, 2, 0, 2, 1] := by
  have e3 : effectiveResolution 3 = 3 := by decide
  have hl : sampleParticles4.length = 4 := rfl
  obtain ⟨_, h2, h3⟩ := tick_buffer_lengths sampleParticles4 (FloatArith.lit HOST_FRAMTETIME) 3 4
    [] []
  rw [e3, hl] at h2
  rw [e3] at h3
  have hidx : (ParticleShape.ctor 3 : ParticleShape ℚ).indices = [0, 1, 2, 0, 2, 1] := by
    rw [ctor_indices, e3]
    decide
  refine ⟨hl, ?_, ?_, ?_, ?_, hidx⟩
  · rw [h2]; rfl
  · rw [h2]; decide
  · rw [h3]; rfl
  · rw [h3]; decide

/-- C13, amended: for four particles and the shape `ParticleShape(3)`, which has `V = 3`
vertices and `6` indices, after one tick the flattened vertices number `12`, the vertex
buffer flattened to floats (`x`, `y`, `z` of each vertex) has length `36 = 4 * 3 * 3` and
the index buffer of `GenerateParticleIndices(4, shape)` has length `24 = 4 * 6`. -/
theorem C13_buffer_lengths {F : Type} [FloatArith F] (particles : List (Particle F)) (dt : F)
    (outV : List (Vector3 F)) (outI : List Nat) (hlen : particles.length = 4) :
    (ParticleShape.ctor 3 : ParticleShape F).localVertices.length = 3
      ∧ (ParticleShape.ctor 3 : ParticleShape F).indices.length = 6
      ∧ (GenerateParticleVertices (simulationTick particles dt) (ParticleShape.ctor 3)
          outV).length = 12
      ∧ (flattenVertexData
          (GenerateParticleVertices (simulationTick particles dt) (ParticleShape.ctor 3)
            outV)).length = 36
      ∧ (GenerateParticleIndices 4 (ParticleShape.ctor 3 : ParticleShape F) outI).length
          = 24 := by
  have e3 : effectiveResolution 3 = 3 := by decide
  obtain ⟨h1, h2, h3⟩ := tick_buffer_lengths particles dt 3 4 outV outI
  rw [e3, hlen] at h1 h2
  rw [e3] at h3
  refine ⟨?_, ?_, ?_, ?_, ?_⟩
  · rw [ctor_localVertices_length, e3]; rfl
  · rw [ctor_indices, e3]; rfl
  · rw [h1]; rfl
  · rw [h2]; rfl
  · rw [h3]; rfl

/-- Witness of the amended C13: four particles at rest in exact arithmetic. -/
theorem C13_buffer_lengths_witness :
    (ParticleShape.ctor 3 : ParticleShape ℚ).localVertices.length = 3
      ∧ (ParticleShape.ctor 3 : ParticleShape ℚ).indices.length = 6
      ∧ (GenerateParticleVertices
          (simulationTick sampleParticles4 (FloatArith.lit HOST_FRAMTETIME))
          (ParticleShape.ctor 3) []).length = 12
      ∧ (flattenVertexData
          (GenerateParticleVertices
            (simulationTick sampleParticles4 (FloatArith.lit HOST_FRAMTETIME))
            (ParticleShape.ctor 3) [])).length = 36
      ∧ (GenerateParticleIndices 4 (ParticleShape.ctor 3 : ParticleShape ℚ) []).length = 24 :=
  C13_buffer_lengths sampleParticles4 (FloatArith.lit HOST_FRAMTETIME) [] [] rfl

end Particles
